/-
Verification of the graph-surgery and model-configuration routines of the
`training_extensions` repository fragment.

The development shallowly embeds three source files:
  * `otx/mpa/deploy/utils/onnx.py` — `remove_nodes_by_op_type` and
    `prepare_onnx_for_openvino`, which splice nodes of a given op type out of
    an ONNX graph;
  * `src/otx/algo/classification/deit_tiny.py` — the explain-mode forward
    dispatch of `ForwardExplainMixInForDeit`;
  * `src/otx/algo/segmentation/litehrnet.py` — the PTQ ignored-scope tables of
    `LiteHRNet`.

ONNX protobuf messages are embedded as plain structures holding the fields the
code touches; tensor names are strings.  Python functions that mutate the
protobuf in place are embedded as pure functions returning the new value, and
functions that can raise return `Option` (with `none` for a raised exception).
-/
import Mathlib

set_option maxHeartbeats 1000000
set_option maxRecDepth 4000

namespace Spec2Proof

/-! ## Data model: ONNX protobuf messages

`NodeProto.input` and `NodeProto.output` are the lists of tensor names wired
into / out of a node.  `GraphProto.input`, `GraphProto.output` and
`GraphProto.initializer` hold the NAMES of the declared graph inputs, declared
graph outputs and initializers (the Python code only ever reads `.name` of
these entries).  `ModelProto.ir_version` stands for the model fields other
than the graph, so that frame conditions about them can be stated. -/

structure NodeProto where
  name : String
  op_type : String
  input : List String
  output : List String
  deriving DecidableEq, Repr

structure GraphProto where
  name : String
  node : List NodeProto
  input : List String
  output : List String
  initializer : List String
  deriving DecidableEq, Repr

structure ModelProto where
  ir_version : Nat
  graph : GraphProto
  deriving DecidableEq, Repr

/-! ## The ONNX checker

`onnx.checker.check_model` is third-party library code that is not part of
this repository. -/

/-- Modelled from the spec: the spec says the routine is "splicing out
marker/no-op nodes while preserving input/output port wiring and graph
validity" and ends with "validate"; the validation called is the third-party
`onnx.checker.check_model`, whose code is not in the repository.  We model the
structural graph check it performs: walking the node list in order with a
lexical scope seeded by the declared graph inputs and initializers, every node
input must already be in scope, and every node output must be fresh (the graph
must be in single-static-assignment form).  Optional empty-string names and
the non-structural field checks of the real checker are not modelled. -/
def checkNodes (scope : List String) : List NodeProto → Bool
  | [] => true
  | n :: ns =>
    n.input.all (fun s => scope.contains s) &&
    n.output.all (fun s => !scope.contains s) &&
    decide n.output.Nodup &&
    checkNodes (scope ++ n.output) ns

/-- The lexical scope after walking a node list: the initial scope extended by
every node's outputs. -/
def scopeAfter (scope : List String) (l : List NodeProto) : List String :=
  l.foldl (fun sc n => sc ++ n.output) scope

/-- Modelled from the spec: `onnx.checker.check_model`, see `checkNodes`.
Returns `true` when the model passes the check (the Python call returns
normally) and `false` when it fails (the Python call raises). -/
def check_model (g : GraphProto) : Bool :=
  checkNodes (g.input ++ g.initializer) g.node

/-! ## `remove_nodes_by_op_type` (`otx/mpa/deploy/utils/onnx.py`)

The Python function iterates over the nodes of the given op type collected up
front, and for each one rewires every consumer of its first output to its
first input, renames the producers of its first input when its first output is
a declared graph output, and removes it from the graph, finally running the
checker.

Protobuf node objects are mutated in place and removed with
`graph.node.remove(target_node)`.  We embed the node list as a list of nodes
tagged with their original position (`List.enum`), so that the loop can refer
to the current value of a target node the way the Python reference does, and
removal is by tag.  (`remove` removes the first value-equal node, but since
nodes that compare equal share an op type, targets are processed in position
order, and every node equal to the current target and positioned earlier is an
already-removed target, the first value-equal node is always the target
itself, so removal by tag is faithful.) -/

def supported_op_types : List String := ["Mark", "Conv"]

/-- `out_node.input[i] = in_port` for every input entry equal to `out_port`. -/
def rewriteInputs (out_port in_port : String) (n : NodeProto) : NodeProto :=
  { n with input := n.input.map fun s => if s = out_port then in_port else s }

/-- `in_node.output[i] = out_port` for every output entry equal to `in_port`. -/
def rewriteOutputs (in_port out_port : String) (n : NodeProto) : NodeProto :=
  { n with output := n.output.map fun s => if s = in_port then out_port else s }

/-- The effect of one loop iteration on a single node: consumers of `out_port`
are rewired to `in_port`, and, when `out_port` is a declared graph output,
producers of `in_port` are renamed to emit `out_port`. -/
def spliceFn (output_names : List String) (in_port out_port : String)
    (n : NodeProto) : NodeProto :=
  if out_port ∈ output_names then rewriteOutputs in_port out_port (rewriteInputs out_port in_port n)
  else rewriteInputs out_port in_port n

/-- The effect of one loop iteration on the whole node list (the target node
itself is also rewritten, as in the Python loops over `graph.node`). -/
def rewireStep (output_names : List String) (in_port out_port : String)
    (nodes : List NodeProto) : List NodeProto :=
  nodes.map (spliceFn output_names in_port out_port)

/-- `rewireStep` on position-tagged nodes. -/
def rewireStepI (output_names : List String) (in_port out_port : String)
    (nodes : List (Nat × NodeProto)) : List (Nat × NodeProto) :=
  nodes.map fun p => (p.1, spliceFn output_names in_port out_port p.2)

/-- One iteration of the `for target_node in target_nodes` loop: read the
current first input and first output of the target (raising, i.e. `none`, when
either list is empty), rewire, and remove the target from the graph. -/
def spliceTarget (output_names : List String) (nodes : List (Nat × NodeProto))
    (tid : Nat) : Option (List (Nat × NodeProto)) :=
  match nodes.find? (fun p => p.1 == tid) with
  | none => none
  | some (_, t) =>
    match t.input.head?, t.output.head? with
    | some in_port, some out_port =>
      some ((rewireStepI output_names in_port out_port nodes).filter fun p => p.1 != tid)
    | _, _ => none

/-- `remove_nodes_by_op_type(onnx_model, op_type)`.  `none` models a raised
exception (the failed `assert`, an `IndexError` on an empty port list, or a
failed final `onnx.checker.check_model`). -/
def remove_nodes_by_op_type (onnx_model : ModelProto) (op_type : String) :
    Option ModelProto :=
  if op_type ∈ supported_op_types then
    let withIds := onnx_model.graph.node.enum
    let target_ids := (withIds.filter fun p => p.2.op_type == op_type).map Prod.fst
    let output_names := onnx_model.graph.output
    match target_ids.foldlM (fun s tid => spliceTarget output_names s tid) withIds with
    | some nodes' =>
      let g := { onnx_model.graph with node := nodes'.map Prod.snd }
      if check_model g then some { onnx_model with graph := g } else none
    | none => none
  else none

/-- The `target_nodes` of a tagged node list: the tags of its nodes of the
given op type, in order. -/
def targetsOf (op_type : String) (s : List (Nat × NodeProto)) : List Nat :=
  (s.filter fun p => p.2.op_type == op_type).map Prod.fst

/-- The `for target_node in target_nodes` loop as a fold. -/
def foldSplice (output_names : List String) (s : List (Nat × NodeProto))
    (ids : List Nat) : Option (List (Nat × NodeProto)) :=
  ids.foldlM (fun s tid => spliceTarget output_names s tid) s

/-- `prepare_onnx_for_openvino(in_path, out_path)`: file I/O is modelled as
value passing; the function loads a model, removes the `"Mark"` nodes, checks
the result again, and saves it (returns it). -/
def prepare_onnx_for_openvino (onnx_model : ModelProto) : Option ModelProto :=
  match remove_nodes_by_op_type onnx_model "Mark" with
  | some m => if check_model m.graph then some m else none
  | none => none

/-! ## Single-pass reference transformation (for the refinement claim)

The spec calls the routine "a small, single-pass, single-purpose
transformation (remove nodes of a given type from a small graph, rewire
edges, validate)".  The reference below follows those words: it traverses the
graph's node list exactly once and, at each node of the given type met during
that traversal, drops it and rewires the edges of the nodes already visited
(the accumulator) and of the nodes still to visit. -/

/-- Single traversal of the node list, removing nodes of type `op_type` and
rewiring as it goes.  `acc` holds the already-visited nodes in reverse. -/
def singlePassAux (output_names : List String) (op_type : String) :
    List NodeProto → List NodeProto → Option (List NodeProto)
  | acc, [] => some acc.reverse
  | acc, n :: ns =>
    if n.op_type == op_type then
      match n.input.head?, n.output.head? with
      | some in_port, some out_port =>
        singlePassAux output_names op_type
          (rewireStep output_names in_port out_port acc)
          (rewireStep output_names in_port out_port ns)
      | _, _ => none
    else
      singlePassAux output_names op_type (n :: acc) ns
  termination_by _ ns => ns.length
  decreasing_by
    · simp [rewireStep]
    · simp

/-- The single-pass reference transformation, with the same supported-type
assertion and final validation as `remove_nodes_by_op_type`. -/
def remove_nodes_single_pass (onnx_model : ModelProto) (op_type : String) :
    Option ModelProto :=
  if op_type ∈ supported_op_types then
    match singlePassAux onnx_model.graph.output op_type [] onnx_model.graph.node with
    | some nodes' =>
      let g := { onnx_model.graph with node := nodes' }
      if check_model g then some { onnx_model with graph := g } else none
    | none => none
  else none

/-! ## `ForwardExplainMixInForDeit._forward_explain_image_classifier`
(`src/otx/algo/classification/deit_tiny.py`)

The numeric tensor operations are framework calls (mmpretrain / torch) and are
embedded as abstract total functions carried by an `ImageClassifier` record
over an abstract tensor type `T`, resolution type `R` and prediction type `P`.
The control flow of the Python function — the backbone loop, the saliency and
feature-vector extraction, the mode dispatch and the returned dict — is
embedded concretely.  A raised exception is an `Except.error`: `RuntimeError`
for the invalid-mode branch, `IndexError` for `x[-1]` on an empty tuple. -/

inductive PyError where
  | runtimeError (msg : String)
  | indexError
  deriving DecidableEq, Repr

/-- One transformer encoder layer of the ViT backbone: its first LayerNorm
(`layer.norm1`, read separately by the code) and the layer call itself. -/
structure TransformerLayer (T : Type) where
  norm1 : T → T
  call : T → T

/-- The parts of the mmpretrain `ImageClassifier` (with ViT backbone) that
`_forward_explain_image_classifier` reads, as abstract functions. -/
structure ImageClassifier (T R P : Type) where
  shape0 : T → Nat
  patch_embed : T → T × R
  cls_token : Option T
  expand_cls : T → Nat → T
  cat_cls : T → T → T
  add : T → T → T
  pos_embed : T
  patch_resolution : R
  resize_pos_embed : T → R → R → T
  drop_after_pos : T → T
  pre_norm : T → T
  layers : List (TransformerLayer T)
  final_norm : Bool
  ln1 : T → T
  out_indices : List Nat
  format_output : T → R → T
  with_neck : Bool
  neck : List T → List T
  with_head : Bool
  head : List T → T
  head_predict : List T → Option P → P
  explain_fn : Option T → T

/-- The value stored under a key of the returned dict (`logits` is a tensor, a
tuple of tensors, or a prediction list depending on the branch taken). -/
inductive ExplainVal (T P : Type) where
  | tensor (t : T)
  | tuple (xs : List T)
  | preds (p : P)
  deriving DecidableEq, Repr

variable {T R P : Type}

/-- The `for i, layer in enumerate(backbone.layers)` loop: at the last index
the pre-layer `layer.norm1(x)` is saved as `layernorm_feat`, after the last
layer `backbone.ln1` is applied when `final_norm` is set, and formatted
outputs are collected at the indices in `out_indices`. -/
def backboneLayersLoop (numLayers : Nat) (out_indices : List Nat)
    (final_norm : Bool) (ln1 : T → T) (fmt : T → T) :
    Nat → T → List T → Option T → List (TransformerLayer T) → T × List T × Option T
  | _, x, outs, lnf, [] => (x, outs, lnf)
  | i, x, outs, lnf, layer :: rest =>
    let lnf' := if i = numLayers - 1 then some (layer.norm1 x) else lnf
    let x' := layer.call x
    let x'' := if i = numLayers - 1 && final_norm then ln1 x' else x'
    let outs' := if i ∈ out_indices then outs ++ [fmt x''] else outs
    backboneLayersLoop numLayers out_indices final_norm ln1 fmt (i + 1) x'' outs' lnf' rest

/-- The backbone forward section of `_forward_explain_image_classifier`
(patch embedding, class token, position embedding, encoder loop); returns the
tuple of collected outputs and the saved `layernorm_feat`. -/
def backbone_forward (c : ImageClassifier T R P) (inputs : T) : List T × Option T :=
  let batch_size := c.shape0 inputs
  let (x0, patch_resolution) := c.patch_embed inputs
  let x1 :=
    match c.cls_token with
    | some ct => c.cat_cls (c.expand_cls ct batch_size) x0
    | none => x0
  let x2 := c.add x1 (c.resize_pos_embed c.pos_embed c.patch_resolution patch_resolution)
  let x3 := c.drop_after_pos x2
  let x4 := c.pre_norm x3
  let (_, outs, lnf) :=
    backboneLayersLoop c.layers.length c.out_indices c.final_norm c.ln1
      (fun t => c.format_output t patch_resolution) 0 x4 [] none c.layers
  (outs, lnf)

/-- The tuple `x` after the optional neck, from which `feature_vector = x[-1]`
is taken. -/
def explainFeatureList (c : ImageClassifier T R P) (inputs : T) : List T :=
  let (outs, _) := backbone_forward c inputs
  if c.with_neck then c.neck outs else outs

/-- `_forward_explain_image_classifier(self, inputs, data_samples, mode)`. -/
def _forward_explain_image_classifier (c : ImageClassifier T R P) (inputs : T)
    (data_samples : Option P) (mode : String) :
    Except PyError (List (String × ExplainVal T P)) :=
  let (outs, lnf) := backbone_forward c inputs
  let saliency_map := c.explain_fn lnf
  let x := if c.with_neck then c.neck outs else outs
  match x.getLast? with
  | none => .error .indexError
  | some feature_vector =>
    if mode = "tensor" then
      let logits : ExplainVal T P := if c.with_head then .tensor (c.head x) else .tuple x
      .ok [("logits", logits), ("feature_vector", .tensor feature_vector),
           ("saliency_map", .tensor saliency_map)]
    else if mode = "predict" then
      .ok [("logits", .preds (c.head_predict x data_samples)),
           ("feature_vector", .tensor feature_vector),
           ("saliency_map", .tensor saliency_map)]
    else
      .error (.runtimeError ("Invalid mode \"" ++ mode ++ "\"."))

/-! ## `LiteHRNet` PTQ configuration (`src/otx/algo/segmentation/litehrnet.py`)

`LiteHRNet.__init__` sets `self.model_name = f"litehrnet_{variant}"`; the
`Literal` variant values `"18"`, `18`, `"s"` and `"x"` all format to the
suffixes `"18"`, `"s"` and `"x"` (the integer `18` formats identically to the
string `"18"`), so the variant is embedded as a string.  The Python methods
return nested dicts of configuration data; they are embedded as records whose
fields are the dict keys, with an `Option` for a key that is only sometimes
present (`"patterns"`) and `none` for the empty dict returned on an unknown
model name.  The float literal `1e-4` is embedded as the rational `1 / 10000`.
-/

def litehrnet_model_name (variant : String) : String := "litehrnet_" ++ variant

def names_litehrnet_18 : List String := [
  "/model/backbone/stage0/stage0.0/layers/layers.0/cross_resolution_weighting/Mul",
  "/model/backbone/stage0/stage0.0/layers/layers.0/cross_resolution_weighting/Mul_1",
  "/model/backbone/stage0/stage0.0/layers/layers.1/cross_resolution_weighting/Mul",
  "/model/backbone/stage0/stage0.0/layers/layers.1/cross_resolution_weighting/Mul_1",
  "/model/backbone/stage0/stage0.0/Add_1",
  "/model/backbone/stage0/stage0.1/layers/layers.0/cross_resolution_weighting/Mul",
  "/model/backbone/stage0/stage0.1/layers/layers.0/cross_resolution_weighting/Mul_1",
  "/model/backbone/stage0/stage0.1/layers/layers.1/cross_resolution_weighting/Mul",
  "/model/backbone/stage0/stage0.1/layers/layers.1/cross_resolution_weighting/Mul_1",
  "/model/backbone/stage0/stage0.1/Add_1",
  "/model/backbone/stage1/stage1.0/layers/layers.0/cross_resolution_weighting/Mul",
  "/model/backbone/stage1/stage1.0/layers/layers.0/cross_resolution_weighting/Mul_1",
  "/model/backbone/stage1/stage1.0/layers/layers.0/cross_resolution_weighting/Mul_2",
  "/model/backbone/stage1/stage1.0/layers/layers.1/cross_resolution_weighting/Mul",
  "/model/backbone/stage1/stage1.0/layers/layers.1/cross_resolution_weighting/Mul_1",
  "/model/backbone/stage1/stage1.0/Add_1",
  "/model/backbone/stage1/stage1.0/layers/layers.1/cross_resolution_weighting/Mul_2",
  "/model/backbone/stage1/stage1.0/Add_2",
  "/model/backbone/stage1/stage1.0/Add_5",
  "/model/backbone/stage1/stage1.1/layers/layers.0/cross_resolution_weighting/Mul",
  "/model/backbone/stage1/stage1.1/layers/layers.0/cross_resolution_weighting/Mul_1",
  "/model/backbone/stage1/stage1.1/layers/layers.0/cross_resolution_weighting/Mul_2",
  "/model/backbone/stage1/stage1.1/layers/layers.1/cross_resolution_weighting/Mul",
  "/model/backbone/stage1/stage1.1/layers/layers.1/cross_resolution_weighting/Mul_1",
  "/model/backbone/stage1/stage1.1/Add_1",
  "/model/backbone/stage1/stage1.1/layers/layers.1/cross_resolution_weighting/Mul_2",
  "/model/backbone/stage1/stage1.1/Add_2",
  "/model/backbone/stage1/stage1.1/Add_5",
  "/model/backbone/stage1/stage1.2/layers/layers.0/cross_resolution_weighting/Mul",
  "/model/backbone/stage1/stage1.2/layers/layers.0/cross_resolution_weighting/Mul_1",
  "/model/backbone/stage1/stage1.2/layers/layers.0/cross_resolution_weighting/Mul_2",
  "/model/backbone/stage1/stage1.2/layers/layers.1/cross_resolution_weighting/Mul",
  "/model/backbone/stage1/stage1.2/layers/layers.1/cross_resolution_weighting/Mul_1",
  "/model/backbone/stage1/stage1.2/Add_1",
  "/model/backbone/stage1/stage1.2/layers/layers.1/cross_resolution_weighting/Mul_2",
  "/model/backbone/stage1/stage1.2/Add_2",
  "/model/backbone/stage1/stage1.2/Add_5",
  "/model/backbone/stage1/stage1.3/layers/layers.0/cross_resolution_weighting/Mul",
  "/model/backbone/stage1/stage1.3/layers/layers.0/cross_resolution_weighting/Mul_1",
  "/model/backbone/stage1/stage1.3/layers/layers.0/cross_resolution_weighting/Mul_2",
  "/model/backbone/stage1/stage1.3/layers/layers.1/cross_resolution_weighting/Mul",
  "/model/backbone/stage1/stage1.3/layers/layers.1/cross_resolution_weighting/Mul_1",
  "/model/backbone/stage1/stage1.3/Add_1",
  "/model/backbone/stage1/stage1.3/layers/layers.1/cross_resolution_weighting/Mul_2",
  "/model/backbone/stage1/stage1.3/Add_2",
  "/model/backbone/stage1/stage1.3/Add_5",
  "/model/backbone/stage2/stage2.0/layers/layers.0/cross_resolution_weighting/Mul",
  "/model/backbone/stage2/stage2.0/layers/layers.0/cross_resolution_weighting/Mul_1",
  "/model/backbone/stage2/stage2.0/layers/layers.0/cross_resolution_weighting/Mul_2",
  "/model/backbone/stage2/stage2.0/layers/layers.0/cross_resolution_weighting/Mul_3",
  "/model/backbone/stage2/stage2.0/layers/layers.1/cross_resolution_weighting/Mul",
  "/model/backbone/stage2/stage2.0/layers/layers.1/cross_resolution_weighting/Mul_1",
  "/model/backbone/stage2/stage2.0/Add_1",
  "/model/backbone/stage2/stage2.0/layers/layers.1/cross_resolution_weighting/Mul_2",
  "/model/backbone/stage2/stage2.0/Add_2",
  "/model/backbone/stage2/stage2.0/layers/layers.1/cross_resolution_weighting/Mul_3",
  "/model/backbone/stage2/stage2.0/Add_3",
  "/model/backbone/stage2/stage2.0/Add_6",
  "/model/backbone/stage2/stage2.0/Add_7",
  "/model/backbone/stage2/stage2.0/Add_11",
  "/model/backbone/stage2/stage2.1/layers/layers.0/cross_resolution_weighting/Mul",
  "/model/backbone/stage2/stage2.1/layers/layers.0/cross_resolution_weighting/Mul_1",
  "/model/backbone/stage2/stage2.1/layers/layers.0/cross_resolution_weighting/Mul_2",
  "/model/backbone/stage2/stage2.1/layers/layers.0/cross_resolution_weighting/Mul_3",
  "/model/backbone/stage2/stage2.1/layers/layers.1/cross_resolution_weighting/Mul",
  "/model/backbone/stage2/stage2.1/layers/layers.1/cross_resolution_weighting/Mul_1",
  "/model/backbone/stage2/stage2.1/Add_1",
  "/model/backbone/stage2/stage2.1/layers/layers.1/cross_resolution_weighting/Mul_2",
  "/model/backbone/stage2/stage2.1/Add_2",
  "/model/backbone/stage2/stage2.1/layers/layers.1/cross_resolution_weighting/Mul_3",
  "/model/backbone/stage2/stage2.1/Add_3",
  "/model/backbone/stage2/stage2.1/Add_6",
  "/model/backbone/stage2/stage2.1/Add_7",
  "/model/backbone/stage2/stage2.1/Add_11",
  "/model/aggregator/Add",
  "/model/aggregator/Add_1",
  "/model/aggregator/Add_2",
  "/model/backbone/stage2/stage2.1/Add"]

def names_litehrnet_s : List String := [
  "/model/backbone/stage0/stage0.0/layers/layers.0/cross_resolution_weighting/Mul",
  "/model/backbone/stage0/stage0.0/layers/layers.0/cross_resolution_weighting/Mul_1",
  "/model/backbone/stage0/stage0.0/layers/layers.1/cross_resolution_weighting/Mul",
  "/model/backbone/stage0/stage0.0/layers/layers.1/cross_resolution_weighting/Mul_1",
  "/model/backbone/stage0/stage0.0/Add_1",
  "/model/backbone/stage0/stage0.1/layers/layers.0/cross_resolution_weighting/Mul",
  "/model/backbone/stage0/stage0.1/layers/layers.0/cross_resolution_weighting/Mul_1",
  "/model/backbone/stage0/stage0.1/layers/layers.1/cross_resolution_weighting/Mul",
  "/model/backbone/stage0/stage0.1/layers/layers.1/cross_resolution_weighting/Mul_1",
  "/model/backbone/stage0/stage0.1/Add_1",
  "/model/backbone/stage0/stage0.2/layers/layers.0/cross_resolution_weighting/Mul",
  "/model/backbone/stage0/stage0.2/layers/layers.0/cross_resolution_weighting/Mul_1",
  "/model/backbone/stage0/stage0.2/layers/layers.1/cross_resolution_weighting/Mul",
  "/model/backbone/stage0/stage0.2/layers/layers.1/cross_resolution_weighting/Mul_1",
  "/model/backbone/stage0/stage0.2/Add_1",
  "/model/backbone/stage0/stage0.3/layers/layers.0/cross_resolution_weighting/Mul",
  "/model/backbone/stage0/stage0.3/layers/layers.0/cross_resolution_weighting/Mul_1",
  "/model/backbone/stage0/stage0.3/layers/layers.1/cross_resolution_weighting/Mul",
  "/model/backbone/stage0/stage0.3/layers/layers.1/cross_resolution_weighting/Mul_1",
  "/model/backbone/stage0/stage0.3/Add_1",
  "/model/backbone/stage1/stage1.0/layers/layers.0/cross_resolution_weighting/Mul",
  "/model/backbone/stage1/stage1.0/layers/layers.0/cross_resolution_weighting/Mul_1",
  "/model/backbone/stage1/stage1.0/layers/layers.0/cross_resolution_weighting/Mul_2",
  "/model/backbone/stage1/stage1.0/layers/layers.1/cross_resolution_weighting/Mul",
  "/model/backbone/stage1/stage1.0/layers/layers.1/cross_resolution_weighting/Mul_1",
  "/model/backbone/stage1/stage1.0/Add_1",
  "/model/backbone/stage1/stage1.0/layers/layers.1/cross_resolution_weighting/Mul_2",
  "/model/backbone/stage1/stage1.0/Add_2",
  "/model/backbone/stage1/stage1.0/Add_5",
  "/model/backbone/stage1/stage1.1/layers/layers.0/cross_resolution_weighting/Mul",
  "/model/backbone/stage1/stage1.1/layers/layers.0/cross_resolution_weighting/Mul_1",
  "/model/backbone/stage1/stage1.1/layers/layers.0/cross_resolution_weighting/Mul_2",
  "/model/backbone/stage1/stage1.1/layers/layers.1/cross_resolution_weighting/Mul",
  "/model/backbone/stage1/stage1.1/layers/layers.1/cross_resolution_weighting/Mul_1",
  "/model/backbone/stage1/stage1.1/Add_1",
  "/model/backbone/stage1/stage1.1/layers/layers.1/cross_resolution_weighting/Mul_2",
  "/model/backbone/stage1/stage1.1/Add_2",
  "/model/backbone/stage1/stage1.1/Add_5",
  "/model/backbone/stage1/stage1.2/layers/layers.0/cross_resolution_weighting/Mul",
  "/model/backbone/stage1/stage1.2/layers/layers.0/cross_resolution_weighting/Mul_1",
  "/model/backbone/stage1/stage1.2/layers/layers.0/cross_resolution_weighting/Mul_2",
  "/model/backbone/stage1/stage1.2/layers/layers.1/cross_resolution_weighting/Mul",
  "/model/backbone/stage1/stage1.2/layers/layers.1/cross_resolution_weighting/Mul_1",
  "/model/backbone/stage1/stage1.2/Add_1",
  "/model/backbone/stage1/stage1.2/layers/layers.1/cross_resolution_weighting/Mul_2",
  "/model/backbone/stage1/stage1.2/Add_2",
  "/model/backbone/stage1/stage1.2/Add_5",
  "/model/backbone/stage1/stage1.3/layers/layers.0/cross_resolution_weighting/Mul",
  "/model/backbone/stage1/stage1.3/layers/layers.0/cross_resolution_weighting/Mul_1",
  "/model/backbone/stage1/stage1.3/layers/layers.0/cross_resolution_weighting/Mul_2",
  "/model/backbone/stage1/stage1.3/layers/layers.1/cross_resolution_weighting/Mul",
  "/model/backbone/stage1/stage1.3/layers/layers.1/cross_resolution_weighting/Mul_1",
  "/model/backbone/stage1/stage1.3/Add_1",
  "/model/backbone/stage1/stage1.3/layers/layers.1/cross_resolution_weighting/Mul_2",
  "/model/backbone/stage1/stage1.3/Add_2",
  "/model/backbone/stage1/stage1.3/Add_5",
  "/model/aggregator/Add",
  "/model/aggregator/Add_1"]

def names_litehrnet_x : List String := [
  "/model/backbone/stage0/stage0.0/layers/layers.0/cross_resolution_weighting/Mul",
  "/model/backbone/stage0/stage0.0/layers/layers.0/cross_resolution_weighting/Mul_1",
  "/model/backbone/stage0/stage0.0/layers/layers.1/cross_resolution_weighting/Mul",
  "/model/backbone/stage0/stage0.0/layers/layers.1/cross_resolution_weighting/Mul_1",
  "/model/backbone/stage0/stage0.0/Add_1",
  "/model/backbone/stage0/stage0.1/layers/layers.0/cross_resolution_weighting/Mul",
  "/model/backbone/stage0/stage0.1/layers/layers.0/cross_resolution_weighting/Mul_1",
  "/model/backbone/stage0/stage0.1/layers/layers.1/cross_resolution_weighting/Mul",
  "/model/backbone/stage0/stage0.1/layers/layers.1/cross_resolution_weighting/Mul_1",
  "/model/backbone/stage0/stage0.1/Add_1",
  "/model/backbone/stage1/stage1.0/layers/layers.0/cross_resolution_weighting/Mul",
  "/model/backbone/stage1/stage1.0/layers/layers.0/cross_resolution_weighting/Mul_1",
  "/model/backbone/stage1/stage1.0/layers/layers.0/cross_resolution_weighting/Mul_2",
  "/model/backbone/stage1/stage1.0/layers/layers.1/cross_resolution_weighting/Mul",
  "/model/backbone/stage1/stage1.0/layers/layers.1/cross_resolution_weighting/Mul_1",
  "/model/backbone/stage1/stage1.0/Add_1",
  "/model/backbone/stage1/stage1.0/layers/layers.1/cross_resolution_weighting/Mul_2",
  "/model/backbone/stage1/stage1.0/Add_2",
  "/model/backbone/stage1/stage1.0/Add_5",
  "/model/backbone/stage1/stage1.1/layers/layers.0/cross_resolution_weighting/Mul",
  "/model/backbone/stage1/stage1.1/layers/layers.0/cross_resolution_weighting/Mul_1",
  "/model/backbone/stage1/stage1.1/layers/layers.0/cross_resolution_weighting/Mul_2",
  "/model/backbone/stage1/stage1.1/layers/layers.1/cross_resolution_weighting/Mul",
  "/model/backbone/stage1/stage1.1/layers/layers.1/cross_resolution_weighting/Mul_1",
  "/model/backbone/stage1/stage1.1/Add_1",
  "/model/backbone/stage1/stage1.1/layers/layers.1/cross_resolution_weighting/Mul_2",
  "/model/backbone/stage1/stage1.1/Add_2",
  "/model/backbone/stage1/stage1.1/Add_5",
  "/model/backbone/stage1/stage1.2/layers/layers.0/cross_resolution_weighting/Mul",
  "/model/backbone/stage1/stage1.2/layers/layers.0/cross_resolution_weighting/Mul_1",
  "/model/backbone/stage1/stage1.2/layers/layers.0/cross_resolution_weighting/Mul_2",
  "/model/backbone/stage1/stage1.2/layers/layers.1/cross_resolution_weighting/Mul",
  "/model/backbone/stage1/stage1.2/layers/layers.1/cross_resolution_weighting/Mul_1",
  "/model/backbone/stage1/stage1.2/Add_1",
  "/model/backbone/stage1/stage1.2/layers/layers.1/cross_resolution_weighting/Mul_2",
  "/model/backbone/stage1/stage1.2/Add_2",
  "/model/backbone/stage1/stage1.2/Add_5",
  "/model/backbone/stage1/stage1.3/layers/layers.0/cross_resolution_weighting/Mul",
  "/model/backbone/stage1/stage1.3/layers/layers.0/cross_resolution_weighting/Mul_1",
  "/model/backbone/stage1/stage1.3/layers/layers.0/cross_resolution_weighting/Mul_2",
  "/model/backbone/stage1/stage1.3/layers/layers.1/cross_resolution_weighting/Mul",
  "/model/backbone/stage1/stage1.3/layers/layers.1/cross_resolution_weighting/Mul_1",
  "/model/backbone/stage1/stage1.3/Add_1",
  "/model/backbone/stage1/stage1.3/layers/layers.1/cross_resolution_weighting/Mul_2",
  "/model/backbone/stage1/stage1.3/Add_2",
  "/model/backbone/stage1/stage1.3/Add_5",
  "/model/backbone/stage2/stage2.0/layers/layers.0/cross_resolution_weighting/Mul",
  "/model/backbone/stage2/stage2.0/layers/layers.0/cross_resolution_weighting/Mul_1",
  "/model/backbone/stage2/stage2.0/layers/layers.0/cross_resolution_weighting/Mul_2",
  "/model/backbone/stage2/stage2.0/layers/layers.0/cross_resolution_weighting/Mul_3",
  "/model/backbone/stage2/stage2.0/layers/layers.1/cross_resolution_weighting/Mul",
  "/model/backbone/stage2/stage2.0/layers/layers.1/cross_resolution_weighting/Mul_1",
  "/model/backbone/stage2/stage2.0/Add_1",
  "/model/backbone/stage2/stage2.0/layers/layers.1/cross_resolution_weighting/Mul_2",
  "/model/backbone/stage2/stage2.0/Add_2",
  "/model/backbone/stage2/stage2.0/layers/layers.1/cross_resolution_weighting/Mul_3",
  "/model/backbone/stage2/stage2.0/Add_3",
  "/model/backbone/stage2/stage2.0/Add_6",
  "/model/backbone/stage2/stage2.0/Add_7",
  "/model/backbone/stage2/stage2.0/Add_11",
  "/model/backbone/stage2/stage2.1/layers/layers.0/cross_resolution_weighting/Mul",
  "/model/backbone/stage2/stage2.1/layers/layers.0/cross_resolution_weighting/Mul_1",
  "/model/backbone/stage2/stage2.1/layers/layers.0/cross_resolution_weighting/Mul_2",
  "/model/backbone/stage2/stage2.1/layers/layers.0/cross_resolution_weighting/Mul_3",
  "/model/backbone/stage2/stage2.1/layers/layers.1/cross_resolution_weighting/Mul",
  "/model/backbone/stage2/stage2.1/layers/layers.1/cross_resolution_weighting/Mul_1",
  "/model/backbone/stage2/stage2.1/Add_1",
  "/model/backbone/stage2/stage2.1/layers/layers.1/cross_resolution_weighting/Mul_2",
  "/model/backbone/stage2/stage2.1/Add_2",
  "/model/backbone/stage2/stage2.1/layers/layers.1/cross_resolution_weighting/Mul_3",
  "/model/backbone/stage2/stage2.1/Add_3",
  "/model/backbone/stage2/stage2.1/Add_6",
  "/model/backbone/stage2/stage2.1/Add_7",
  "/model/backbone/stage2/stage2.1/Add_11",
  "/model/backbone/stage2/stage2.2/layers/layers.0/cross_resolution_weighting/Mul",
  "/model/backbone/stage2/stage2.2/layers/layers.0/cross_resolution_weighting/Mul_1",
  "/model/backbone/stage2/stage2.2/layers/layers.0/cross_resolution_weighting/Mul_2",
  "/model/backbone/stage2/stage2.2/layers/layers.0/cross_resolution_weighting/Mul_3",
  "/model/backbone/stage2/stage2.2/layers/layers.1/cross_resolution_weighting/Mul",
  "/model/backbone/stage2/stage2.2/layers/layers.1/cross_resolution_weighting/Mul_1",
  "/model/backbone/stage2/stage2.2/Add_1",
  "/model/backbone/stage2/stage2.2/layers/layers.1/cross_resolution_weighting/Mul_2",
  "/model/backbone/stage2/stage2.2/Add_2",
  "/model/backbone/stage2/stage2.2/layers/layers.1/cross_resolution_weighting/Mul_3",
  "/model/backbone/stage2/stage2.2/Add_3",
  "/model/backbone/stage2/stage2.2/Add_6",
  "/model/backbone/stage2/stage2.2/Add_7",
  "/model/backbone/stage2/stage2.2/Add_11",
  "/model/backbone/stage2/stage2.3/layers/layers.0/cross_resolution_weighting/Mul",
  "/model/backbone/stage2/stage2.3/layers/layers.0/cross_resolution_weighting/Mul_1",
  "/model/backbone/stage2/stage2.3/layers/layers.0/cross_resolution_weighting/Mul_2",
  "/model/backbone/stage2/stage2.3/layers/layers.0/cross_resolution_weighting/Mul_3",
  "/model/backbone/stage2/stage2.3/layers/layers.1/cross_resolution_weighting/Mul",
  "/model/backbone/stage2/stage2.3/layers/layers.1/cross_resolution_weighting/Mul_1",
  "/model/backbone/stage2/stage2.3/Add_1",
  "/model/backbone/stage2/stage2.3/layers/layers.1/cross_resolution_weighting/Mul_2",
  "/model/backbone/stage2/stage2.3/Add_2",
  "/model/backbone/stage2/stage2.3/layers/layers.1/cross_resolution_weighting/Mul_3",
  "/model/backbone/stage2/stage2.3/Add_3",
  "/model/backbone/stage2/stage2.3/Add_6",
  "/model/backbone/stage2/stage2.3/Add_7",
  "/model/backbone/stage2/stage2.3/Add_11",
  "/model/backbone/stage3/stage3.0/layers/layers.0/cross_resolution_weighting/Mul",
  "/model/backbone/stage3/stage3.0/layers/layers.0/cross_resolution_weighting/Mul_1",
  "/model/backbone/stage3/stage3.0/layers/layers.0/cross_resolution_weighting/Mul_2",
  "/model/backbone/stage3/stage3.0/layers/layers.0/cross_resolution_weighting/Mul_3",
  "/model/backbone/stage3/stage3.0/layers/layers.0/cross_resolution_weighting/Mul_4",
  "/model/backbone/stage3/stage3.0/layers/layers.1/cross_resolution_weighting/Mul",
  "/model/backbone/stage3/stage3.0/layers/layers.1/cross_resolution_weighting/Mul_1",
  "/model/backbone/stage3/stage3.0/Add_1",
  "/model/backbone/stage3/stage3.0/layers/layers.1/cross_resolution_weighting/Mul_2",
  "/model/backbone/stage3/stage3.0/Add_2",
  "/model/backbone/stage3/stage3.0/layers/layers.1/cross_resolution_weighting/Mul_3",
  "/model/backbone/stage3/stage3.0/Add_3",
  "/model/backbone/stage3/stage3.0/layers/layers.1/cross_resolution_weighting/Mul_4",
  "/model/backbone/stage3/stage3.0/Add_4",
  "/model/backbone/stage3/stage3.0/Add_7",
  "/model/backbone/stage3/stage3.0/Add_8",
  "/model/backbone/stage3/stage3.0/Add_9",
  "/model/backbone/stage3/stage3.0/Add_13",
  "/model/backbone/stage3/stage3.0/Add_14",
  "/model/backbone/stage3/stage3.0/Add_19",
  "/model/backbone/stage3/stage3.1/layers/layers.0/cross_resolution_weighting/Mul",
  "/model/backbone/stage3/stage3.1/layers/layers.0/cross_resolution_weighting/Mul_1",
  "/model/backbone/stage3/stage3.1/layers/layers.0/cross_resolution_weighting/Mul_2",
  "/model/backbone/stage3/stage3.1/layers/layers.0/cross_resolution_weighting/Mul_3",
  "/model/backbone/stage3/stage3.1/layers/layers.0/cross_resolution_weighting/Mul_4",
  "/model/backbone/stage3/stage3.1/layers/layers.1/cross_resolution_weighting/Mul",
  "/model/backbone/stage3/stage3.1/layers/layers.1/cross_resolution_weighting/Mul_1",
  "/model/backbone/stage3/stage3.1/Add_1",
  "/model/backbone/stage3/stage3.1/layers/layers.1/cross_resolution_weighting/Mul_2",
  "/model/backbone/stage3/stage3.1/Add_2",
  "/model/backbone/stage3/stage3.1/layers/layers.1/cross_resolution_weighting/Mul_3",
  "/model/backbone/stage3/stage3.1/Add_3",
  "/model/backbone/stage3/stage3.1/layers/layers.1/cross_resolution_weighting/Mul_4",
  "/model/backbone/stage3/stage3.1/Add_4",
  "/model/backbone/stage3/stage3.1/Add_7",
  "/model/backbone/stage3/stage3.1/Add_8",
  "/model/backbone/stage3/stage3.1/Add_9",
  "/model/backbone/stage3/stage3.1/Add_13",
  "/model/backbone/stage3/stage3.1/Add_14",
  "/model/backbone/stage3/stage3.1/Add_19",
  "/model/backbone/stage0/stage0.0/Add",
  "/model/backbone/stage0/stage0.1/Add",
  "/model/backbone/stage1/stage1.0/Add",
  "/model/backbone/stage1/stage1.1/Add",
  "/model/backbone/stage1/stage1.2/Add",
  "/model/backbone/stage1/stage1.3/Add",
  "/model/backbone/stage2/stage2.0/Add",
  "/model/backbone/stage2/stage2.1/Add",
  "/model/backbone/stage2/stage2.2/Add",
  "/model/backbone/stage2/stage2.3/Add",
  "/model/backbone/stage3/stage3.0/Add",
  "/model/backbone/stage3/stage3.1/Add"]

/-- One `min`/`max` entry of `activations_range_estimator_params`. -/
structure RangeEstimatorParam where
  statistics_type : String
  aggregator_type : String
  quantile_outlier_prob : Rat
  deriving DecidableEq, Repr

structure ActivationsRangeEstimatorParams where
  min : RangeEstimatorParam
  max : RangeEstimatorParam
  deriving DecidableEq, Repr

structure AdvancedParameters where
  activations_range_estimator_params : ActivationsRangeEstimatorParams
  deriving DecidableEq, Repr

/-- The `"ignored_scope"` dict: `"patterns"` is present only for the `18` and
`x` variants. -/
structure IgnoredScope where
  patterns : Option (List String)
  names : List String
  deriving DecidableEq, Repr

/-- The non-empty dict returned by `_obtain_ignored_scope`: the
`"ignored_scope"` and `"preset"` keys. -/
structure ScopeCfg where
  ignored_scope : IgnoredScope
  preset : String
  deriving DecidableEq, Repr

/-- `LiteHRNet._obtain_ignored_scope`, as a function of `self.model_name`
(`none` is the empty dict returned when no branch matches). -/
def _obtain_ignored_scope (model_name : String) : Option ScopeCfg :=
  if model_name = "litehrnet_18" then
    some { ignored_scope := { patterns := some ["/model/backbone/*"],
                              names := names_litehrnet_18 },
           preset := "mixed" }
  else if model_name = "litehrnet_s" then
    some { ignored_scope := { patterns := none,
                              names := names_litehrnet_s },
           preset := "mixed" }
  else if model_name = "litehrnet_x" then
    some { ignored_scope := { patterns := some ["/model/aggregator/*"],
                              names := names_litehrnet_x },
           preset := "performance" }
  else none

/-- The `advanced_parameters` entry built by `LiteHRNet._optimization_config`. -/
def quantileAdvancedParameters : AdvancedParameters :=
  { activations_range_estimator_params :=
    { min := { statistics_type := "QUANTILE", aggregator_type := "MIN",
               quantile_outlier_prob := 1 / 10000 },
      max := { statistics_type := "QUANTILE", aggregator_type := "MAX",
               quantile_outlier_prob := 1 / 10000 } } }

/-- The dict built by `LiteHRNet._optimization_config`: the fixed
`advanced_parameters` entry, then `optim_config.update(ignored_scope)`, which
adds the `"ignored_scope"` and `"preset"` keys exactly when
`_obtain_ignored_scope` returned the non-empty dict. -/
structure OptimConfig where
  advanced_parameters : AdvancedParameters
  scope : Option ScopeCfg
  deriving DecidableEq, Repr

/-- `LiteHRNet._optimization_config`, as a function of `self.model_name`. -/
def _optimization_config (model_name : String) : OptimConfig :=
  { advanced_parameters := quantileAdvancedParameters,
    scope := _obtain_ignored_scope model_name }

/-! ## Notions used to state the frame conditions -/

/-- The composite effect on one node of a sequence of splices with the given
`(in_port, out_port)` pairs. -/
def applyChain (names : List String) (ps : List (String × String)) (n : NodeProto) : NodeProto :=
  ps.foldl (fun n p => spliceFn names p.1 p.2 n) n

/-- The first outputs of the nodes of the given op type of a node list. -/
def firstTargetOutputs (t : String) (l : List NodeProto) : List String :=
  (l.filter fun n => n.op_type == t).filterMap fun n => n.output.head?

/-- The frame property of `remove_nodes_by_op_type`: all model and graph
fields other than the node list are unchanged, and the nodes whose op type
differs from the removed one remain, in order, with name, op type and port
arities preserved, with input entries unchanged except entries that named a
removed node's first output, and with output entries unchanged except entries
renamed to a declared graph output name. -/
def FrameSpec (m : ModelProto) (t : String) (m' : ModelProto) : Prop :=
  m'.ir_version = m.ir_version ∧
  m'.graph.name = m.graph.name ∧
  m'.graph.input = m.graph.input ∧
  m'.graph.output = m.graph.output ∧
  m'.graph.initializer = m.graph.initializer ∧
  List.Forall₂ (fun (n n' : NodeProto) =>
      n'.name = n.name ∧
      n'.op_type = n.op_type ∧
      n'.input.length = n.input.length ∧
      n'.output.length = n.output.length ∧
      (∀ (k : Nat) (x : String), n.input[k]? = some x →
        x ∉ firstTargetOutputs t m.graph.node → n'.input[k]? = some x) ∧
      (∀ (k : Nat) (x y : String), n.output[k]? = some x → n'.output[k]? = some y →
        y ≠ x → y ∈ m.graph.output))
    (m.graph.node.filter fun n => n.op_type != t) m'.graph.node

/-! ## Concrete models used as witnesses and counterexamples -/

/-- A model with no nodes at all. -/
def emptyModel : ModelProto :=
  { ir_version := 7,
    graph := { name := "g", node := [], input := [], output := [], initializer := [] } }

/-- A well-formed model with a single `Mark` node between two `Relu` nodes:
`x → P → a → M → b → Q → c`. -/
def markModel : ModelProto :=
  { ir_version := 7,
    graph := { name := "g",
               node := [{ name := "P", op_type := "Relu", input := ["x"], output := ["a"] },
                        { name := "M", op_type := "Mark", input := ["a"], output := ["b"] },
                        { name := "Q", op_type := "Relu", input := ["b"], output := ["c"] }],
               input := ["x"], output := ["c"], initializer := [] } }

/-- The result of removing the `Mark` node from `markModel`. -/
def markModelSpliced : ModelProto :=
  { ir_version := 7,
    graph := { name := "g",
               node := [{ name := "P", op_type := "Relu", input := ["x"], output := ["a"] },
                        { name := "Q", op_type := "Relu", input := ["a"], output := ["c"] }],
               input := ["x"], output := ["c"], initializer := [] } }

/-- A chain of two `Mark` nodes: `a → M1 → b → M2 → c → Q → d`, with `a` a
declared graph input. -/
def chainModel : ModelProto :=
  { ir_version := 7,
    graph := { name := "g",
               node := [{ name := "M1", op_type := "Mark", input := ["a"], output := ["b"] },
                        { name := "M2", op_type := "Mark", input := ["b"], output := ["c"] },
                        { name := "Q", op_type := "Relu", input := ["c"], output := ["d"] }],
               input := ["a"], output := ["d"], initializer := [] } }

/-- The result of removing the `Mark` nodes from `chainModel`: `Q` ends up
consuming `a`, the first input of the first `Mark` node of the chain. -/
def chainModelResult : ModelProto :=
  { ir_version := 7,
    graph := { name := "g",
               node := [{ name := "Q", op_type := "Relu", input := ["a"], output := ["d"] }],
               input := ["a"], output := ["d"], initializer := [] } }

/-- A valid model on which the final check fails after the splice: the `Mark`
node's first output `b` is a declared graph output, so the producer of `a` is
renamed to emit `b`, which breaks the second consumer `Q` of `a`. -/
def renameBreakModel : ModelProto :=
  { ir_version := 7,
    graph := { name := "g",
               node := [{ name := "P", op_type := "Relu", input := ["x"], output := ["a"] },
                        { name := "M", op_type := "Mark", input := ["a"], output := ["b"] },
                        { name := "Q", op_type := "Relu", input := ["a"], output := ["c"] }],
               input := ["x"], output := ["b", "c"], initializer := [] } }

/-- A model whose only node is a `Mark` node fed directly by a graph input and
producing a declared graph output: after its removal no node produces the
declared output `b`. -/
def danglingOutputModel : ModelProto :=
  { ir_version := 7,
    graph := { name := "g",
               node := [{ name := "M", op_type := "Mark", input := ["a"], output := ["b"] }],
               input := ["a"], output := ["b"], initializer := [] } }

/-- The result of removing the `Mark` node from `danglingOutputModel`: the
node list is empty, so the declared graph output `b` is produced by no
remaining node, yet the final check accepts the graph. -/
def danglingOutputResult : ModelProto :=
  { ir_version := 7,
    graph := { name := "g", node := [], input := ["a"], output := ["b"],
               initializer := [] } }

/-- A trivial transformer layer over `Nat` tensors. -/
def trivialLayer : TransformerLayer Nat := { norm1 := id, call := id }

/-- A concrete classifier instance over `Nat` tensors, with one layer whose
output is collected. -/
def trivialClassifier : ImageClassifier Nat Nat Nat :=
  { shape0 := fun _ => 1, patch_embed := fun t => (t, 0), cls_token := none,
    expand_cls := fun t _ => t, cat_cls := fun a _ => a, add := fun a _ => a,
    pos_embed := 0, patch_resolution := 0, resize_pos_embed := fun t _ _ => t,
    drop_after_pos := id, pre_norm := id, layers := [trivialLayer],
    final_norm := false, ln1 := id, out_indices := [0],
    format_output := fun t _ => t, with_neck := false, neck := id,
    with_head := true, head := fun _ => 0, head_predict := fun _ _ => 0,
    explain_fn := fun _ => 0 }

/-- The property claimed of the explain forward dispatch: a `RuntimeError`
result exactly for a mode other than `"tensor"` and `"predict"`, and for the
two valid modes a dict with exactly the keys `"logits"`, `"feature_vector"`
and `"saliency_map"`. -/
def ForwardExplainModeSpec (c : ImageClassifier T R P) (inputs : T)
    (ds : Option P) (mode : String) : Prop :=
  ((∃ msg, _forward_explain_image_classifier c inputs ds mode =
      .error (.runtimeError msg)) ↔ mode ≠ "tensor" ∧ mode ≠ "predict") ∧
  (mode = "tensor" ∨ mode = "predict" →
    ∃ d, _forward_explain_image_classifier c inputs ds mode = .ok d ∧
      d.map Prod.fst = ["logits", "feature_vector", "saliency_map"])

/-! ## General lemmas -/

theorem check_model_of_remove_eq_some {m m' : ModelProto} {t : String}
    (h : remove_nodes_by_op_type m t = some m') : check_model m'.graph = true := by
  unfold remove_nodes_by_op_type at h
  split at h
  · dsimp only at h
    split at h
    · split at h
      · cases h
        simpa using ‹check_model _ = true›
      · exact absurd h (by simp)
    · exact absurd h (by simp)
  · exact absurd h (by simp)

theorem supported_of_remove_eq_some {m m' : ModelProto} {t : String}
    (h : remove_nodes_by_op_type m t = some m') : t ∈ supported_op_types := by
  unfold remove_nodes_by_op_type at h
  split at h
  · assumption
  · exact absurd h (by simp)

/-! ## Structural lemmas about the splice step -/

theorem remove_nodes_by_op_type_eq (m : ModelProto) (t : String) :
    remove_nodes_by_op_type m t =
      if t ∈ supported_op_types then
        match foldSplice m.graph.output m.graph.node.enum
            (targetsOf t m.graph.node.enum) with
        | some nodes' =>
          if check_model { m.graph with node := nodes'.map Prod.snd } then
            some { m with graph := { m.graph with node := nodes'.map Prod.snd } }
          else none
        | none => none
      else none := rfl

@[simp] theorem spliceFn_op_type (names : List String) (i o : String) (n : NodeProto) :
    (spliceFn names i o n).op_type = n.op_type := by
  unfold spliceFn rewriteInputs rewriteOutputs
  split <;> rfl

@[simp] theorem spliceFn_name (names : List String) (i o : String) (n : NodeProto) :
    (spliceFn names i o n).name = n.name := by
  unfold spliceFn rewriteInputs rewriteOutputs
  split <;> rfl

@[simp] theorem spliceFn_input (names : List String) (i o : String) (n : NodeProto) :
    (spliceFn names i o n).input = n.input.map fun s => if s = o then i else s := by
  unfold spliceFn rewriteInputs rewriteOutputs
  split <;> rfl

theorem spliceFn_output (names : List String) (i o : String) (n : NodeProto) :
    (spliceFn names i o n).output =
      if o ∈ names then n.output.map fun s => if s = i then o else s
      else n.output := by
  unfold spliceFn rewriteInputs rewriteOutputs
  split <;> simp_all

theorem spliceFn_output_not_mem (names : List String) (i o : String) (n : NodeProto)
    (h : o ∉ names) : (spliceFn names i o n).output = n.output := by
  rw [spliceFn_output, if_neg h]

@[simp] theorem rewireStep_length (names : List String) (i o : String)
    (nodes : List NodeProto) :
    (rewireStep names i o nodes).length = nodes.length := by
  simp [rewireStep]

theorem rewireStep_append (names : List String) (i o : String)
    (l₁ l₂ : List NodeProto) :
    rewireStep names i o (l₁ ++ l₂) = rewireStep names i o l₁ ++ rewireStep names i o l₂ := by
  simp [rewireStep]

theorem rewireStep_reverse (names : List String) (i o : String) (l : List NodeProto) :
    rewireStep names i o l.reverse = (rewireStep names i o l).reverse := by
  simp [rewireStep]

@[simp] theorem rewireStepI_map_fst (names : List String) (i o : String)
    (l : List (Nat × NodeProto)) :
    (rewireStepI names i o l).map Prod.fst = l.map Prod.fst := by
  simp [rewireStepI]

@[simp] theorem rewireStepI_map_snd (names : List String) (i o : String)
    (l : List (Nat × NodeProto)) :
    (rewireStepI names i o l).map Prod.snd = rewireStep names i o (l.map Prod.snd) := by
  simp [rewireStepI, rewireStep]

theorem rewireStepI_append (names : List String) (i o : String)
    (l₁ l₂ : List (Nat × NodeProto)) :
    rewireStepI names i o (l₁ ++ l₂) = rewireStepI names i o l₁ ++ rewireStepI names i o l₂ := by
  simp [rewireStepI]

@[simp] theorem targetsOf_nil (t : String) : targetsOf t [] = [] := rfl

theorem targetsOf_append (t : String) (l₁ l₂ : List (Nat × NodeProto)) :
    targetsOf t (l₁ ++ l₂) = targetsOf t l₁ ++ targetsOf t l₂ := by
  simp [targetsOf]

theorem targetsOf_cons_target (t : String) (p : Nat × NodeProto)
    (l : List (Nat × NodeProto)) (h : p.2.op_type = t) :
    targetsOf t (p :: l) = p.1 :: targetsOf t l := by
  simp [targetsOf, List.filter_cons, h]

theorem targetsOf_cons_nontarget (t : String) (p : Nat × NodeProto)
    (l : List (Nat × NodeProto)) (h : ¬ p.2.op_type = t) :
    targetsOf t (p :: l) = targetsOf t l := by
  simp [targetsOf, List.filter_cons, h]

theorem targetsOf_eq_nil (t : String) (l : List (Nat × NodeProto))
    (h : ∀ p ∈ l, ¬ p.2.op_type = t) : targetsOf t l = [] := by
  simp only [targetsOf, List.map_eq_nil_iff]
  exact List.filter_eq_nil_iff.mpr (by simpa using h)

theorem targetsOf_rewireStepI (t : String) (names : List String) (i o : String)
    (l : List (Nat × NodeProto)) :
    targetsOf t (rewireStepI names i o l) = targetsOf t l := by
  unfold targetsOf rewireStepI
  rw [List.filter_map]
  simp [Function.comp_def]

theorem foldSplice_nil (names : List String) (s : List (Nat × NodeProto)) :
    foldSplice names s [] = some s := rfl

theorem foldSplice_cons (names : List String) (s : List (Nat × NodeProto))
    (tid : Nat) (ids : List Nat) :
    foldSplice names s (tid :: ids) =
      (spliceTarget names s tid).bind fun s' => foldSplice names s' ids := by
  cases h : spliceTarget names s tid <;> simp [foldSplice, List.foldlM, h]

theorem find?_first_tag (tid : Nat) (pn : Nat × NodeProto)
    (A B : List (Nat × NodeProto)) (hA : ∀ p ∈ A, p.1 ≠ tid) (hpn : pn.1 = tid) :
    (A ++ pn :: B).find? (fun p => p.1 == tid) = some pn := by
  induction A with
  | nil => simp [List.find?, hpn]
  | cons a A ih =>
    have ha : (a.1 == tid) = false := by
      simpa using hA a (List.mem_cons_self a A)
    simp only [List.cons_append, List.find?, ha]
    exact ih fun p hp => hA p (List.mem_cons_of_mem a hp)

theorem rewireStepI_cons (names : List String) (i o : String) (p : Nat × NodeProto)
    (l : List (Nat × NodeProto)) :
    rewireStepI names i o (p :: l) = (p.1, spliceFn names i o p.2) :: rewireStepI names i o l := rfl

/-! ## The bridge: the target-list fold is the single-pass traversal

`remove_nodes_by_op_type` collects the target nodes up front and then loops
over them; the reference transformation finds them during one traversal of
the node list.  The two agree because the rewiring steps never change an op
type, so the targets still to process are exactly the nodes of the given op
type in the not-yet-visited part of the list, in order. -/

theorem foldSplice_eq_singlePassAux (names : List String) (t : String) :
    ∀ (fuel : Nat) (rest acc : List NodeProto) (s : List (Nat × NodeProto)),
      rest.length ≤ fuel →
      s.map Prod.snd = acc.reverse ++ rest →
      (∀ n ∈ acc, ¬ n.op_type = t) →
      (s.map Prod.fst).Nodup →
      (foldSplice names s (targetsOf t s)).map (List.map Prod.snd) =
        singlePassAux names t acc rest := by
  intro fuel
  induction fuel with
  | zero =>
    intro rest acc s hle hmap hacc _
    obtain rfl : rest = [] := List.length_eq_zero.mp (Nat.le_zero.mp hle)
    rw [List.append_nil] at hmap
    have hsfree : targetsOf t s = [] := by
      refine targetsOf_eq_nil t s fun p hp => ?_
      have : p.2 ∈ acc.reverse := hmap ▸ List.mem_map_of_mem Prod.snd hp
      exact hacc p.2 (List.mem_reverse.mp this)
    rw [hsfree, foldSplice_nil]
    simp [singlePassAux, hmap]
  | succ fuel ih =>
    intro rest acc s hle hmap hacc hnd
    cases rest with
    | nil =>
      rw [List.append_nil] at hmap
      have hsfree : targetsOf t s = [] := by
        refine targetsOf_eq_nil t s fun p hp => ?_
        have : p.2 ∈ acc.reverse := hmap ▸ List.mem_map_of_mem Prod.snd hp
        exact hacc p.2 (List.mem_reverse.mp this)
      rw [hsfree, foldSplice_nil]
      simp [singlePassAux, hmap]
    | cons n ns =>
      by_cases hop : n.op_type = t
      · -- the head of the unvisited part is a target node
        obtain ⟨A, rest₁, hs₁, hA, hrest₁⟩ := List.map_eq_append_iff.mp hmap
        obtain ⟨pn, B, hs₂, hpn, hB⟩ := List.map_eq_cons_iff.mp hrest₁
        subst hs₂
        obtain ⟨tid, pn2⟩ := pn
        dsimp only at hpn
        subst pn2
        have hndf : (A.map Prod.fst ++ tid :: B.map Prod.fst).Nodup := by
          rw [hs₁] at hnd; simpa using hnd
        have hAtid : ∀ p ∈ A, p.1 ≠ tid := by
          intro p hp he
          rcases List.nodup_append.mp hndf with ⟨-, -, hdisj⟩
          exact hdisj (he ▸ List.mem_map_of_mem Prod.fst hp) (List.mem_cons_self _ _)
        have hBtid : ∀ p ∈ B, p.1 ≠ tid := by
          intro p hp he
          rcases List.nodup_append.mp hndf with ⟨-, hcons, -⟩
          exact (List.nodup_cons.mp hcons).1 (he ▸ List.mem_map_of_mem Prod.fst hp)
        have hAfree : ∀ p ∈ A, ¬ p.2.op_type = t := by
          intro p hp
          have : p.2 ∈ acc.reverse := hA ▸ List.mem_map_of_mem Prod.snd hp
          exact hacc p.2 (List.mem_reverse.mp this)
        have htg : targetsOf t s = tid :: targetsOf t B := by
          rw [hs₁, targetsOf_append, targetsOf_eq_nil t A hAfree,
            targetsOf_cons_target t (tid, n) B hop]
          rfl
        have hfind : s.find? (fun p => p.1 == tid) = some (tid, n) := by
          rw [hs₁]; exact find?_first_tag tid (tid, n) A B hAtid rfl
        rw [htg, foldSplice_cons]
        cases hi : n.input.head? with
        | none =>
          have hsplice : spliceTarget names s tid = none := by
            unfold spliceTarget
            rw [hfind]
            simp [hi]
          rw [hsplice, Option.none_bind]
          rw [singlePassAux]
          simp [hop, hi]
        | some i =>
          cases ho : n.output.head? with
          | none =>
            have hsplice : spliceTarget names s tid = none := by
              unfold spliceTarget
              rw [hfind]
              simp [hi, ho]
            rw [hsplice, Option.none_bind]
            rw [singlePassAux]
            simp [hop, hi, ho]
          | some o =>
            have hfilterA : (rewireStepI names i o A).filter (fun p => p.1 != tid) =
                rewireStepI names i o A := by
              refine List.filter_eq_self.mpr fun p hp => ?_
              obtain ⟨q, hq, rfl⟩ := List.mem_map.mp hp
              simpa using hAtid q hq
            have hfilterB : (rewireStepI names i o B).filter (fun p => p.1 != tid) =
                rewireStepI names i o B := by
              refine List.filter_eq_self.mpr fun p hp => ?_
              obtain ⟨q, hq, rfl⟩ := List.mem_map.mp hp
              simpa using hBtid q hq
            have hsplice : spliceTarget names s tid =
                some (rewireStepI names i o A ++ rewireStepI names i o B) := by
              unfold spliceTarget
              rw [hfind]
              simp only [hi, ho]
              rw [hs₁, rewireStepI_append, rewireStepI_cons, List.filter_append,
                List.filter_cons]
              simp only [hfilterA, hfilterB]
              simp
            rw [hsplice, Option.some_bind]
            have htgB : targetsOf t B =
                targetsOf t (rewireStepI names i o A ++ rewireStepI names i o B) := by
              rw [targetsOf_append, targetsOf_rewireStepI, targetsOf_rewireStepI,
                targetsOf_eq_nil t A hAfree, List.nil_append]
            rw [htgB]
            have hmap' : (rewireStepI names i o A ++ rewireStepI names i o B).map Prod.snd =
                (rewireStep names i o acc).reverse ++ rewireStep names i o ns := by
              rw [List.map_append, rewireStepI_map_snd, rewireStepI_map_snd, hA, hB,
                rewireStep_reverse]
            have hacc' : ∀ x ∈ rewireStep names i o acc, ¬ x.op_type = t := by
              intro x hx
              obtain ⟨y, hy, rfl⟩ := List.mem_map.mp hx
              simpa using hacc y hy
            have hnd' : ((rewireStepI names i o A ++ rewireStepI names i o B).map
                Prod.fst).Nodup := by
              rw [List.map_append, rewireStepI_map_fst, rewireStepI_map_fst]
              refine hndf.sublist ?_
              exact (List.sublist_cons_self tid (B.map Prod.fst)).append_left (A.map Prod.fst)
            have := ih (rewireStep names i o ns) (rewireStep names i o acc)
              (rewireStepI names i o A ++ rewireStepI names i o B)
              (by simpa using Nat.le_of_succ_le_succ hle) hmap' hacc' hnd'
            rw [this]
            rw [singlePassAux]
            simp [hop, hi, ho]
      · -- the head of the unvisited part is kept
        have hmap' : s.map Prod.snd = (n :: acc).reverse ++ ns := by
          rw [hmap, List.reverse_cons, List.append_assoc]; rfl
        have hacc' : ∀ x ∈ n :: acc, ¬ x.op_type = t := by
          intro x hx
          rcases List.mem_cons.mp hx with rfl | hx
          · exact hop
          · exact hacc x hx
        have := ih ns (n :: acc) s (by simpa using Nat.le_of_succ_le_succ hle)
          hmap' hacc' hnd
        rw [this]
        rw [singlePassAux]
        simp [hop]

theorem remove_eq_single_pass (m : ModelProto) (t : String) :
    remove_nodes_by_op_type m t = remove_nodes_single_pass m t := by
  rw [remove_nodes_by_op_type_eq]
  unfold remove_nodes_single_pass
  by_cases hs : t ∈ supported_op_types
  · rw [if_pos hs, if_pos hs]
    have hbridge := foldSplice_eq_singlePassAux m.graph.output t m.graph.node.length
      m.graph.node [] m.graph.node.enum (le_refl _)
      (by rw [List.enum_map_snd]; simp)
      (by simp)
      (by rw [List.enum_map_fst]; exact List.nodup_range _)
    cases hf : foldSplice m.graph.output m.graph.node.enum (targetsOf t m.graph.node.enum) with
    | none =>
      rw [hf] at hbridge
      simp only [Option.map_none'] at hbridge
      rw [← hbridge]
    | some ns' =>
      rw [hf] at hbridge
      simp only [Option.map_some'] at hbridge
      rw [← hbridge]
  · rw [if_neg hs, if_neg hs]

/-- Success characterization of `remove_nodes_by_op_type` in terms of the
single-pass traversal. -/
theorem remove_eq_some_iff (m : ModelProto) (t : String) (m' : ModelProto) :
    remove_nodes_by_op_type m t = some m' ↔
      t ∈ supported_op_types ∧
      ∃ nodes', singlePassAux m.graph.output t [] m.graph.node = some nodes' ∧
        check_model { m.graph with node := nodes' } = true ∧
        m' = { m with graph := { m.graph with node := nodes' } } := by
  rw [remove_eq_single_pass]
  unfold remove_nodes_single_pass
  by_cases hs : t ∈ supported_op_types
  · rw [if_pos hs]
    cases hf : singlePassAux m.graph.output t [] m.graph.node with
    | none => simp [hs]
    | some nodes' =>
      by_cases hc : check_model { m.graph with node := nodes' } = true
      · simp only [hc, if_true, hs, true_and]
        constructor
        · rintro h
          cases h
          exact ⟨nodes', rfl, hc, rfl⟩
        · rintro ⟨n₂, hn₂, -, rfl⟩
          cases hn₂
          rfl
      · simp only [hc, if_false, Bool.false_eq_true, if_neg, hs, true_and]
        constructor
        · rintro ⟨⟩
        · rintro ⟨n₂, hn₂, hc₂, rfl⟩
          cases hn₂
          exact absurd hc₂ hc
  · simp [hs]

/-- Every node in the result of the single-pass traversal keeps its op type
from before the traversal, so no node of the removed op type remains. -/
theorem singlePassAux_no_target (names : List String) (t : String)
    (acc rest : List NodeProto) :
    ∀ r, singlePassAux names t acc rest = some r →
      (∀ n ∈ acc, ¬ n.op_type = t) → ∀ n ∈ r, ¬ n.op_type = t := by
  induction acc, rest using singlePassAux.induct names t with
  | case1 acc =>
    intro r hr hacc n hn
    rw [singlePassAux] at hr
    cases hr
    exact hacc n (List.mem_reverse.mp hn)
  | case2 acc n ns hop i o ho hi ih =>
    intro r hr hacc x hx
    rw [singlePassAux, if_pos hop, hi, ho] at hr
    refine ih r hr ?_ x hx
    intro y hy
    obtain ⟨z, hz, rfl⟩ := List.mem_map.mp hy
    simpa using hacc z hz
  | case3 acc n ns hop hmiss =>
    intro r hr hacc x hx
    rw [singlePassAux, if_pos hop] at hr
    cases hi : n.input.head? with
    | none => rw [hi] at hr; exact absurd hr (by simp)
    | some i =>
      cases ho : n.output.head? with
      | none => rw [hi, ho] at hr; exact absurd hr (by simp)
      | some o => exact absurd (hmiss i o hi ho) not_false
  | case4 acc n ns hop ih =>
    intro r hr hacc x hx
    rw [singlePassAux, if_neg hop] at hr
    refine ih r hr ?_ x hx
    intro y hy
    rcases List.mem_cons.mp hy with rfl | hy
    · simpa using hop
    · exact hacc y hy

/-- A node list without nodes of the removed op type passes through the
single-pass traversal unchanged. -/
theorem singlePassAux_of_no_target (names : List String) (t : String)
    (l : List NodeProto) (hfree : ∀ n ∈ l, ¬ n.op_type = t) :
    ∀ acc, singlePassAux names t acc l = some (acc.reverse ++ l) := by
  induction l with
  | nil => intro acc; rw [singlePassAux]; simp
  | cons n ns ih =>
    intro acc
    have hop : ¬ (n.op_type == t) = true := by
      simpa using hfree n (List.mem_cons_self n ns)
    rw [singlePassAux, if_neg hop,
      ih (fun x hx => hfree x (List.mem_cons_of_mem n hx)) (n :: acc)]
    simp

/-! ## C6: refinement by the single-pass reference -/

/-- C6: `remove_nodes_by_op_type` is extensionally equal to the reference
transformation `remove_nodes_single_pass`, which traverses the graph's node
list once, removing nodes of the given op type and rewiring edges during that
single traversal. -/
theorem C6_single_pass_refinement (m : ModelProto) (t : String) :
    remove_nodes_by_op_type m t = remove_nodes_single_pass m t :=
  remove_eq_single_pass m t

/-! ## C1: removal and rewiring -/

/-- C1 (counterexample): when removed nodes are chained, a consumer of a
removed node's first output does not end up consuming that node's first input
as it was in the given model.  In `chainModel`, `Q` consumed `c`, the first
output of the removed node `M2` whose first input was `b`; after the call `Q`
consumes `a`, not `b`. -/
theorem C1_counterexample :
    remove_nodes_by_op_type chainModel "Mark" = some chainModelResult ∧
    (∃ n2 ∈ chainModel.graph.node, n2.op_type = "Mark" ∧
      n2.input.head? = some "b" ∧ n2.output.head? = some "c") ∧
    (∃ q ∈ chainModel.graph.node, q.name = "Q" ∧ "c" ∈ q.input) ∧
    (∀ q ∈ chainModelResult.graph.node, q.name = "Q" →
      q.input = ["a"] ∧ "b" ∉ q.input) := by
  decide

/-- C1 (amended): whenever `remove_nodes_by_op_type` returns, the returned
graph contains no node of the removed op type; and each splice rewires every
consumer: rewriting a removed node whose first input and first output are
currently `in_port` and `out_port` replaces, in every node, exactly the input
entries equal to `out_port` by `in_port`. -/
theorem C1_remove_and_rewire :
    (∀ (m : ModelProto) (t : String) (m' : ModelProto),
      remove_nodes_by_op_type m t = some m' →
        ∀ n ∈ m'.graph.node, ¬ n.op_type = t) ∧
    (∀ (names : List String) (in_port out_port : String) (ns : List NodeProto),
      List.Forall₂
        (fun n n' => n'.input = n.input.map fun s => if s = out_port then in_port else s)
        ns (rewireStep names in_port out_port ns)) := by
  constructor
  · intro m t m' h
    obtain ⟨-, nodes', hsp, -, rfl⟩ := (remove_eq_some_iff m t m').mp h
    exact singlePassAux_no_target m.graph.output t [] m.graph.node nodes' hsp (by simp)
  · intro names i o ns
    induction ns with
    | nil => exact List.Forall₂.nil
    | cons n ns ih => exact List.Forall₂.cons (spliceFn_input names i o n) ih

/-- C1 (witness): on `markModel` the call succeeds and the result contains no
`Mark` node. -/
theorem C1_witness :
    remove_nodes_by_op_type markModel "Mark" = some markModelSpliced ∧
    (∀ n ∈ markModelSpliced.graph.node, ¬ n.op_type = "Mark") :=
  ⟨by decide, C1_remove_and_rewire.1 markModel "Mark" markModelSpliced (by decide)⟩

/-! ## C8: idempotence -/

/-- C8: when one application of `remove_nodes_by_op_type` succeeds, applying
it a second time with the same op type returns the same model unchanged. -/
theorem C8_idempotent (m m' : ModelProto) (t : String)
    (h : remove_nodes_by_op_type m t = some m') :
    remove_nodes_by_op_type m' t = some m' := by
  obtain ⟨hs, nodes', hsp, hc, rfl⟩ := (remove_eq_some_iff m t m').mp h
  have hfree : ∀ n ∈ nodes', ¬ n.op_type = t :=
    singlePassAux_no_target m.graph.output t [] m.graph.node nodes' hsp (by simp)
  apply (remove_eq_some_iff _ _ _).mpr
  refine ⟨hs, nodes', ?_, hc, rfl⟩
  have := singlePassAux_of_no_target m.graph.output t nodes' hfree []
  simpa using this

/-- C8 (witness): the theorem applied to `markModel`. -/
theorem C8_witness :
    remove_nodes_by_op_type markModel "Mark" = some markModelSpliced ∧
    remove_nodes_by_op_type markModelSpliced "Mark" = some markModelSpliced :=
  ⟨by decide, C8_idempotent markModel markModelSpliced "Mark" (by decide)⟩

/-! ## C4: declared ports and the renaming branch -/

/-- C4 (counterexample): when the removed node's first input has no producer
(here it is the graph input `a`), the renaming loop finds no node to rename
and the declared graph output `b` is produced by no remaining node after the
call, which nevertheless succeeds. -/
theorem C4_counterexample :
    remove_nodes_by_op_type danglingOutputModel "Mark" = some danglingOutputResult ∧
    "b" ∈ danglingOutputModel.graph.output ∧
    (∃ n ∈ danglingOutputModel.graph.node, n.op_type = "Mark" ∧
      n.output.head? = some "b") ∧
    (∀ n ∈ danglingOutputResult.graph.node, "b" ∉ n.output) := by
  decide

/-- C4 (amended): `remove_nodes_by_op_type` never modifies the declared graph
input and output lists; when a splice removes a node whose first output is a
declared graph output, every node is renamed to emit that declared name in
place of the removed node's first input; and the declared name is produced by
some node after the splice provided the removed node's first input was
produced by some node. -/
theorem C4_ports_and_renaming :
    (∀ (m : ModelProto) (t : String) (m' : ModelProto),
      remove_nodes_by_op_type m t = some m' →
        m'.graph.input = m.graph.input ∧ m'.graph.output = m.graph.output) ∧
    (∀ (names : List String) (in_port out_port : String) (ns : List NodeProto),
      out_port ∈ names →
      List.Forall₂
        (fun n n' => n'.output = n.output.map fun s => if s = in_port then out_port else s)
        ns (rewireStep names in_port out_port ns)) ∧
    (∀ (names : List String) (in_port out_port : String) (ns : List NodeProto),
      out_port ∈ names → (∃ p ∈ ns, in_port ∈ p.output) →
      ∃ p' ∈ rewireStep names in_port out_port ns, out_port ∈ p'.output) := by
  refine ⟨?_, ?_, ?_⟩
  · intro m t m' h
    obtain ⟨-, nodes', -, -, rfl⟩ := (remove_eq_some_iff m t m').mp h
    exact ⟨rfl, rfl⟩
  · intro names i o ns ho
    induction ns with
    | nil => exact List.Forall₂.nil
    | cons n ns ih =>
      exact List.Forall₂.cons (by rw [spliceFn_output, if_pos ho]) ih
  · rintro names i o ns ho ⟨p, hp, hip⟩
    refine ⟨spliceFn names i o p, List.mem_map_of_mem _ hp, ?_⟩
    rw [spliceFn_output, if_pos ho]
    exact List.mem_map.mpr ⟨i, hip, if_pos rfl⟩

/-- C4 (witness): on `markModel` the declared port lists are preserved, and
the renaming conjuncts applied at a concrete splice. -/
theorem C4_witness :
    remove_nodes_by_op_type markModel "Mark" = some markModelSpliced ∧
    (markModelSpliced.graph.input = markModel.graph.input ∧
      markModelSpliced.graph.output = markModel.graph.output) :=
  ⟨by decide, C4_ports_and_renaming.1 markModel "Mark" markModelSpliced (by decide)⟩

/-! ## C7: the frame property -/

theorem applyChain_nil (names : List String) (n : NodeProto) :
    applyChain names [] n = n := rfl

theorem applyChain_cons (names : List String) (i o : String)
    (ps : List (String × String)) (n : NodeProto) :
    applyChain names ((i, o) :: ps) n = applyChain names ps (spliceFn names i o n) := rfl

theorem applyChain_op_type (names : List String) (ps : List (String × String)) :
    ∀ n, (applyChain names ps n).op_type = n.op_type := by
  induction ps with
  | nil => intro n; rfl
  | cons p ps ih =>
    intro n
    rw [show p = (p.1, p.2) from rfl, applyChain_cons, ih]
    exact spliceFn_op_type names p.1 p.2 n

theorem applyChain_name (names : List String) (ps : List (String × String)) :
    ∀ n, (applyChain names ps n).name = n.name := by
  induction ps with
  | nil => intro n; rfl
  | cons p ps ih =>
    intro n
    rw [show p = (p.1, p.2) from rfl, applyChain_cons, ih]
    exact spliceFn_name names p.1 p.2 n

theorem spliceFn_input_length (names : List String) (i o : String) (n : NodeProto) :
    (spliceFn names i o n).input.length = n.input.length := by
  rw [spliceFn_input]; exact List.length_map _ _

theorem spliceFn_output_length (names : List String) (i o : String) (n : NodeProto) :
    (spliceFn names i o n).output.length = n.output.length := by
  rw [spliceFn_output]
  split
  · exact List.length_map _ _
  · rfl

theorem applyChain_input_length (names : List String) (ps : List (String × String)) :
    ∀ n, (applyChain names ps n).input.length = n.input.length := by
  induction ps with
  | nil => intro n; rfl
  | cons p ps ih =>
    intro n
    rw [show p = (p.1, p.2) from rfl, applyChain_cons, ih]
    exact spliceFn_input_length names p.1 p.2 n

theorem applyChain_output_length (names : List String) (ps : List (String × String)) :
    ∀ n, (applyChain names ps n).output.length = n.output.length := by
  induction ps with
  | nil => intro n; rfl
  | cons p ps ih =>
    intro n
    rw [show p = (p.1, p.2) from rfl, applyChain_cons, ih]
    exact spliceFn_output_length names p.1 p.2 n

/-- An input entry whose value is not among the out ports of the splice chain
is unchanged by the chain. -/
theorem applyChain_input_getElem (names : List String) (S : List String)
    (ps : List (String × String)) (hps : ∀ p ∈ ps, p.2 ∈ S) :
    ∀ (n : NodeProto) (k : Nat) (x : String), n.input[k]? = some x → x ∉ S →
      (applyChain names ps n).input[k]? = some x := by
  induction ps with
  | nil => intro n k x hx _; exact hx
  | cons p ps ih =>
    intro n k x hx hxS
    rw [show p = (p.1, p.2) from rfl, applyChain_cons]
    refine ih (fun q hq => hps q (List.mem_cons_of_mem p hq)) _ k x ?_ hxS
    rw [spliceFn_input, List.getElem?_map, hx]
    have hxo : ¬ x = p.2 := fun he => hxS (he ▸ hps p (List.mem_cons_self p ps))
    simp [hxo]

/-- An output entry changed by a splice chain was renamed to a declared graph
output name. -/
theorem applyChain_output_changed (names : List String) (ps : List (String × String)) :
    ∀ (n : NodeProto) (k : Nat) (x y : String), n.output[k]? = some x →
      (applyChain names ps n).output[k]? = some y → y ≠ x → y ∈ names := by
  induction ps with
  | nil =>
    intro n k x y hx hy hne
    rw [applyChain_nil, hx] at hy
    cases hy
    exact absurd rfl hne
  | cons p ps ih =>
    intro n k x y hx hy hne
    rw [show p = (p.1, p.2) from rfl, applyChain_cons] at hy
    by_cases hmem : p.2 ∈ names
    · have hx' : (spliceFn names p.1 p.2 n).output[k]? =
          some (if x = p.1 then p.2 else x) := by
        rw [spliceFn_output, if_pos hmem, List.getElem?_map, hx]
        rfl
      by_cases hyx : y = (if x = p.1 then p.2 else x)
      · subst hyx
        by_cases hxp : x = p.1
        · rw [if_pos hxp]
          exact hmem
        · rw [if_neg hxp] at hne
          exact absurd rfl hne
      · exact ih _ k _ y hx' hy hyx
    · have hx' : (spliceFn names p.1 p.2 n).output[k]? = some x := by
        rw [spliceFn_output_not_mem names p.1 p.2 n hmem, hx]
      exact ih _ k x y hx' hy hne

theorem rewireStep_filter (names : List String) (i o : String) (t : String)
    (l : List NodeProto) :
    (rewireStep names i o l).filter (fun n => n.op_type != t) =
      rewireStep names i o (l.filter fun n => n.op_type != t) := by
  unfold rewireStep
  rw [List.filter_map]
  congr 1
  apply List.filter_congr
  intro n _
  simp

theorem forall₂_map_self {α : Type} (Rel : α → α → Prop) (f : α → α) :
    ∀ l : List α, (∀ a ∈ l, Rel a (f a)) → List.Forall₂ Rel l (l.map f) := by
  intro l
  induction l with
  | nil => intro _; exact List.Forall₂.nil
  | cons a l ih =>
    intro h
    exact List.Forall₂.cons (h a (List.mem_cons_self a l))
      (ih fun b hb => h b (List.mem_cons_of_mem a hb))

/-- The single-pass result is the splice chain applied to the surviving
nodes: there is a list of `(in_port, out_port)` pairs, all of whose out ports
are first outputs the removed nodes had when spliced (hence members of any
set `S` containing those), such that the result is the composite rewrite of
the kept nodes. -/
theorem singlePassAux_chain (names : List String) (t : String) (S : List String)
    (acc rest : List NodeProto) :
    ∀ r, singlePassAux names t acc rest = some r →
      (∀ n ∈ rest, n.op_type = t → ∀ x, n.output.head? = some x → x ∈ S) →
      ∃ ps : List (String × String),
        (∀ p ∈ ps, p.2 ∈ S) ∧
        r = ((acc.reverse ++ rest.filter fun n => n.op_type != t).map (applyChain names ps)) := by
  induction acc, rest using singlePassAux.induct names t with
  | case1 acc =>
    intro r hr _
    rw [singlePassAux] at hr
    cases hr
    refine ⟨[], by simp, ?_⟩
    have hid : applyChain names [] = fun n => n := rfl
    simp [hid]
  | case2 acc n ns hop i o ho hi ih =>
    intro r hr hS
    rw [singlePassAux, if_pos hop, hi, ho] at hr
    have hoS : o ∈ S :=
      hS n (List.mem_cons_self n ns) (by simpa using hop) o ho
    have hS' : ∀ n' ∈ rewireStep names i o ns, n'.op_type = t →
        ∀ x, n'.output.head? = some x → x ∈ S := by
      intro n' hn' hop' x hx
      obtain ⟨q, hq, rfl⟩ := List.mem_map.mp hn'
      have hqop : q.op_type = t := by
        have := spliceFn_op_type names i o q
        rw [← this]; exact hop'
      rw [spliceFn_output] at hx
      by_cases hmem : o ∈ names
      · rw [if_pos hmem, List.head?_map] at hx
        cases hqh : q.output.head? with
        | none => rw [hqh] at hx; cases hx
        | some y =>
          rw [hqh] at hx
          cases hx
          show (if y = i then o else y) ∈ S
          split
          · exact hoS
          · exact hS q (List.mem_cons_of_mem n hq) hqop y hqh
      · rw [if_neg hmem] at hx
        exact hS q (List.mem_cons_of_mem n hq) hqop x hx
    obtain ⟨ps, hps, hrps⟩ := ih r hr hS'
    refine ⟨(i, o) :: ps, ?_, ?_⟩
    · intro p hp
      rcases List.mem_cons.mp hp with rfl | hp
      · exact hoS
      · exact hps p hp
    · rw [hrps]
      have hnt : n.op_type = t := by simpa using hop
      have hfn : ((n :: ns).filter fun x => x.op_type != t) =
          ns.filter fun x => x.op_type != t := by
        simp [List.filter_cons, hnt]
      rw [hfn, ← rewireStep_reverse, rewireStep_filter, ← rewireStep_append]
      unfold rewireStep
      rw [List.map_map]
      apply List.map_congr_left
      intro a _
      rfl
  | case3 acc n ns hop hmiss =>
    intro r hr _
    rw [singlePassAux, if_pos hop] at hr
    cases hi : n.input.head? with
    | none => rw [hi] at hr; exact absurd hr (by simp)
    | some i =>
      cases ho : n.output.head? with
      | none => rw [hi, ho] at hr; exact absurd hr (by simp)
      | some o => exact absurd (hmiss i o hi ho) not_false
  | case4 acc n ns hop ih =>
    intro r hr hS
    rw [singlePassAux, if_neg hop] at hr
    obtain ⟨ps, hps, hrps⟩ :=
      ih r hr fun q hq => hS q (List.mem_cons_of_mem n hq)
    refine ⟨ps, hps, ?_⟩
    rw [hrps]
    have hfn : (n.op_type != t) = true := by simpa using hop
    rw [List.filter_cons, hfn]
    simp [List.append_assoc]

/-- C7: the transformation touches nothing else.  Whenever
`remove_nodes_by_op_type` returns, every model and graph field other than the
node list is unchanged (in particular the initializers), and the
non-target nodes all remain, in their relative order, with their names, op
types and port arities; their input entries are unchanged except entries that
named a removed node's first output, and their output entries are unchanged
except entries renamed (by the declared-graph-output branch) to a declared
graph output name. -/
theorem C7_frame_effect (m : ModelProto) (t : String) (m' : ModelProto)
    (h : remove_nodes_by_op_type m t = some m') : FrameSpec m t m' := by
  obtain ⟨-, nodes', hsp, -, rfl⟩ := (remove_eq_some_iff m t m').mp h
  have hS : ∀ n ∈ m.graph.node, n.op_type = t →
      ∀ x, n.output.head? = some x → x ∈ firstTargetOutputs t m.graph.node := by
    intro n hn hop x hx
    exact List.mem_filterMap.mpr
      ⟨n, List.mem_filter.mpr ⟨hn, by simpa using hop⟩, hx⟩
  obtain ⟨ps, hps, hr⟩ :=
    singlePassAux_chain m.graph.output t (firstTargetOutputs t m.graph.node)
      [] m.graph.node nodes' hsp hS
  refine ⟨rfl, rfl, rfl, rfl, rfl, ?_⟩
  show List.Forall₂ _ (m.graph.node.filter fun n => n.op_type != t) nodes'
  rw [hr]
  simp only [List.reverse_nil, List.nil_append]
  refine forall₂_map_self _ _ _ fun n _ => ?_
  exact ⟨applyChain_name _ ps n, applyChain_op_type _ ps n,
    applyChain_input_length _ ps n, applyChain_output_length _ ps n,
    fun k x hx hxS => applyChain_input_getElem _ _ ps hps n k x hx hxS,
    fun k x y hx hy hne => applyChain_output_changed _ ps n k x y hx hy hne⟩

/-- C7 (witness): the frame property at `markModel`. -/
theorem C7_witness :
    remove_nodes_by_op_type markModel "Mark" = some markModelSpliced ∧
    FrameSpec markModel "Mark" markModelSpliced :=
  ⟨by decide, C7_frame_effect markModel "Mark" markModelSpliced (by decide)⟩

/-! ## Lemmas about the modelled checker -/

theorem checkNodes_cons_iff (scope : List String) (n : NodeProto) (l : List NodeProto) :
    checkNodes scope (n :: l) = true ↔
      (∀ s ∈ n.input, s ∈ scope) ∧ (∀ s ∈ n.output, s ∉ scope) ∧
      n.output.Nodup ∧ checkNodes (scope ++ n.output) l = true := by
  simp [checkNodes, List.all_eq_true, List.elem_iff, decide_eq_true_iff, and_assoc]

theorem scopeAfter_nil (scope : List String) : scopeAfter scope [] = scope := rfl

theorem scopeAfter_cons (scope : List String) (n : NodeProto) (l : List NodeProto) :
    scopeAfter scope (n :: l) = scopeAfter (scope ++ n.output) l := rfl

theorem checkNodes_append_iff (l₁ l₂ : List NodeProto) : ∀ scope,
    checkNodes scope (l₁ ++ l₂) = true ↔
      checkNodes scope l₁ = true ∧ checkNodes (scopeAfter scope l₁) l₂ = true := by
  induction l₁ with
  | nil => intro scope; simp [checkNodes, scopeAfter_nil]
  | cons n l ih =>
    intro scope
    rw [List.cons_append, checkNodes_cons_iff, checkNodes_cons_iff, scopeAfter_cons, ih]
    tauto

theorem subset_scopeAfter (l : List NodeProto) : ∀ scope, ∀ x ∈ scope, x ∈ scopeAfter scope l := by
  induction l with
  | nil => intro scope x hx; exact hx
  | cons n l ih =>
    intro scope x hx
    rw [scopeAfter_cons]
    exact ih (scope ++ n.output) x (List.mem_append_left _ hx)

/-- Under the checker, every input of every node is in the final scope. -/
theorem checkNodes_input_scope (l : List NodeProto) : ∀ scope,
    checkNodes scope l = true → ∀ p ∈ l, ∀ x ∈ p.input, x ∈ scopeAfter scope l := by
  induction l with
  | nil => intro _ _ p hp; cases hp
  | cons n l ih =>
    intro scope hchk p hp x hx
    obtain ⟨hin, -, -, hrest⟩ := (checkNodes_cons_iff scope n l).mp hchk
    rw [scopeAfter_cons]
    rcases List.mem_cons.mp hp with rfl | hp
    · exact subset_scopeAfter l _ x (List.mem_append_left _ (hin x hx))
    · exact ih (scope ++ n.output) hrest p hp x hx

/-- Under the checker, every output of every node is fresh with respect to the
initial scope. -/
theorem checkNodes_output_fresh (l : List NodeProto) : ∀ scope,
    checkNodes scope l = true → ∀ p ∈ l, ∀ x ∈ p.output, x ∉ scope := by
  induction l with
  | nil => intro _ _ p hp; cases hp
  | cons n l ih =>
    intro scope hchk p hp x hx
    obtain ⟨-, hfresh, -, hrest⟩ := (checkNodes_cons_iff scope n l).mp hchk
    rcases List.mem_cons.mp hp with rfl | hp
    · exact hfresh x hx
    · intro hmem
      exact ih (scope ++ n.output) hrest p hp x hx (List.mem_append_left _ hmem)

theorem rewriteInputs_output (i o : String) (n : NodeProto) :
    (rewriteInputs o i n).output = n.output := rfl

theorem rewriteInputs_input (i o : String) (n : NodeProto) :
    (rewriteInputs o i n).input = n.input.map fun s => if s = o then i else s := rfl

theorem rewriteInputs_id (i o : String) (p : NodeProto) (h : o ∉ p.input) :
    rewriteInputs o i p = p := by
  unfold rewriteInputs
  have : (p.input.map fun s => if s = o then i else s) = p.input := by
    calc (p.input.map fun s => if s = o then i else s)
        = p.input.map id :=
          List.map_congr_left fun s hs => if_neg fun he => h (by rw [← he]; exact hs)
      _ = p.input := List.map_id _
  rw [this]

theorem rewireStep_not_mem (names : List String) (i o : String) (h : o ∉ names)
    (l : List NodeProto) : rewireStep names i o l = l.map (rewriteInputs o i) := by
  unfold rewireStep
  apply List.map_congr_left
  intro n _
  unfold spliceFn
  rw [if_neg h]

/-- Rewiring the part of the graph after a removed node: if the new scope
`sc₁` is contained in the old one `sc₂`, the names lost are only the removed
node's first output `o` and tail outputs `tl`, the replacement `i` is in the
new scope, and no node consumes a tail output, then the rewritten suffix still
checks. -/
theorem checkNodes_rewrite_scope (i o : String) (tl : List String) (B : List NodeProto) :
    ∀ sc₁ sc₂ : List String,
      (∀ x ∈ sc₁, x ∈ sc₂) →
      (∀ x ∈ sc₂, x ∈ sc₁ ∨ x = o ∨ x ∈ tl) →
      i ∈ sc₁ →
      (∀ x ∈ tl, ∀ p ∈ B, x ∉ p.input) →
      checkNodes sc₂ B = true →
      checkNodes sc₁ (B.map (rewriteInputs o i)) = true := by
  induction B with
  | nil => intro sc₁ sc₂ _ _ _ _ _; rfl
  | cons b B ih =>
    intro sc₁ sc₂ hsub hback hi htl hchk
    obtain ⟨hin, hfresh, hnd, hrest⟩ := (checkNodes_cons_iff sc₂ b B).mp hchk
    rw [List.map_cons, checkNodes_cons_iff]
    refine ⟨?_, ?_, ?_, ?_⟩
    · intro s hs
      rw [rewriteInputs_input] at hs
      obtain ⟨y, hy, rfl⟩ := List.mem_map.mp hs
      by_cases hyo : y = o
      · rw [if_pos hyo]; exact hi
      · rw [if_neg hyo]
        rcases hback y (hin y hy) with h1 | h2 | h3
        · exact h1
        · exact absurd h2 hyo
        · exact absurd hy (htl y h3 b (List.mem_cons_self b B))
    · intro s hs
      rw [rewriteInputs_output] at hs
      exact fun hmem => hfresh s hs (hsub s hmem)
    · rw [rewriteInputs_output]
      exact hnd
    · rw [rewriteInputs_output]
      refine ih (sc₁ ++ b.output) (sc₂ ++ b.output) ?_ ?_
        (List.mem_append_left _ hi)
        (fun x hx p hp => htl x hx p (List.mem_cons_of_mem b hp)) hrest
      · intro x hx
        rcases List.mem_append.mp hx with h | h
        · exact List.mem_append_left _ (hsub x h)
        · exact List.mem_append_right _ h
      · intro x hx
        rcases List.mem_append.mp hx with h | h
        · rcases hback x h with h1 | h2 | h3
          · exact Or.inl (List.mem_append_left _ h1)
          · exact Or.inr (Or.inl h2)
          · exact Or.inr (Or.inr h3)
        · exact Or.inl (List.mem_append_right _ h)

/-- The splice of one removed node preserves the checker when the removed
node's tail outputs are consumed by no node: the nodes before it are
unaffected (its first output is fresh there), and the nodes after it are
rewired onto its first input, which is already in scope. -/
theorem checkNodes_splice (scope : List String) (A B : List NodeProto) (n : NodeProto)
    (i o : String) (tl : List String)
    (hiIn : i ∈ n.input)
    (hout : n.output = o :: tl)
    (hchk : checkNodes scope (A ++ n :: B) = true)
    (htl : ∀ x ∈ tl, ∀ p ∈ B, x ∉ p.input) :
    checkNodes scope (A.map (rewriteInputs o i) ++ B.map (rewriteInputs o i)) = true := by
  obtain ⟨hA, hnB⟩ := (checkNodes_append_iff A (n :: B) scope).mp hchk
  obtain ⟨hnin, hnfresh, -, hB⟩ :=
    (checkNodes_cons_iff (scopeAfter scope A) n B).mp hnB
  have hiS : i ∈ scopeAfter scope A := hnin i hiIn
  have hoF : o ∉ scopeAfter scope A := hnfresh o (by rw [hout]; exact List.mem_cons_self o tl)
  have hAid : A.map (rewriteInputs o i) = A := by
    calc A.map (rewriteInputs o i)
        = A.map id := List.map_congr_left fun p hp =>
          rewriteInputs_id i o p fun hin =>
            hoF (checkNodes_input_scope A scope hA p hp o hin)
      _ = A := List.map_id _
  rw [hAid, checkNodes_append_iff]
  refine ⟨hA, ?_⟩
  refine checkNodes_rewrite_scope i o tl B (scopeAfter scope A)
    (scopeAfter scope A ++ n.output) (fun x hx => List.mem_append_left _ hx) ?_ hiS htl hB
  intro x hx
  rcases List.mem_append.mp hx with h | h
  · exact Or.inl h
  · rw [hout] at h
    rcases List.mem_cons.mp h with rfl | h
    · exact Or.inr (Or.inl rfl)
    · exact Or.inr (Or.inr h)

/-- Checker preservation along the traversal: from a state that checks, in
which every remaining node of the removed type has non-empty port lists, a
first output that is not a declared graph output, and tail outputs consumed by
no node, the traversal succeeds and its result checks. -/
theorem singlePassAux_check (names : List String) (t : String) (scope : List String)
    (acc rest : List NodeProto) :
      checkNodes scope (acc.reverse ++ rest) = true →
      (∀ n ∈ rest, n.op_type = t → n.input ≠ [] ∧ n.output ≠ []) →
      (∀ n ∈ rest, n.op_type = t → ∀ x, n.output.head? = some x → x ∉ names) →
      (∀ n ∈ rest, n.op_type = t → ∀ x ∈ n.output.tail, ∀ p ∈ acc.reverse ++ rest,
        x ∉ p.input) →
      ∃ r, singlePassAux names t acc rest = some r ∧ checkNodes scope r = true := by
  induction acc, rest using singlePassAux.induct names t with
  | case1 acc =>
    intro hchk _ _ _
    exact ⟨acc.reverse, by rw [singlePassAux], by simpa using hchk⟩
  | case2 acc n ns hop i o ho hi ih =>
    intro hchk hports hnodecl htail
    have hnt : n.op_type = t := by simpa using hop
    have honame : o ∉ names := hnodecl n (List.mem_cons_self n ns) hnt o ho
    have hout : n.output = o :: n.output.tail := by
      cases hno : n.output with
      | nil => rw [hno] at ho; cases ho
      | cons y l =>
        rw [hno] at ho
        cases ho
        rfl
    have hiIn : i ∈ n.input := List.mem_of_mem_head? hi
    have htl : ∀ x ∈ n.output.tail, ∀ p ∈ ns, x ∉ p.input := fun x hx p hp =>
      htail n (List.mem_cons_self n ns) hnt x hx p
        (List.mem_append_right _ (List.mem_cons_of_mem n hp))
    have hsplice := checkNodes_splice scope acc.reverse ns n i o n.output.tail
      hiIn hout hchk htl
    -- facts used to re-establish the invariant for the remaining targets
    obtain ⟨-, hnB⟩ := (checkNodes_append_iff acc.reverse (n :: ns) scope).mp hchk
    obtain ⟨hnin, -, -, hB⟩ :=
      (checkNodes_cons_iff (scopeAfter scope acc.reverse) n ns).mp hnB
    have hiS : i ∈ scopeAfter scope acc.reverse := hnin i hiIn
    have hfreshB : ∀ p ∈ ns, ∀ x ∈ p.output, x ∉ scopeAfter scope acc.reverse := by
      intro p hp x hx hmem
      exact checkNodes_output_fresh ns (scopeAfter scope acc.reverse ++ n.output) hB
        p hp x hx (List.mem_append_left _ hmem)
    have hrw : ∀ l, rewireStep names i o l = l.map (rewriteInputs o i) :=
      fun l => rewireStep_not_mem names i o honame l
    have hmem_new : ∀ p' ∈ (rewireStep names i o acc).reverse ++ rewireStep names i o ns,
        ∃ p₀, (p₀ ∈ acc.reverse ++ n :: ns) ∧ p' = rewriteInputs o i p₀ := by
      intro p' hp'
      rcases List.mem_append.mp hp' with h | h
      · rw [List.mem_reverse, hrw] at h
        obtain ⟨p₀, hp₀, rfl⟩ := List.mem_map.mp h
        exact ⟨p₀, List.mem_append_left _ (List.mem_reverse.mpr hp₀), rfl⟩
      · rw [hrw] at h
        obtain ⟨p₀, hp₀, rfl⟩ := List.mem_map.mp h
        exact ⟨p₀, List.mem_append_right _ (List.mem_cons_of_mem n hp₀), rfl⟩
    have hports' : ∀ q ∈ rewireStep names i o ns, q.op_type = t →
        q.input ≠ [] ∧ q.output ≠ [] := by
      intro q hq hqt
      rw [hrw] at hq
      obtain ⟨q₀, hq₀, rfl⟩ := List.mem_map.mp hq
      have hq₀t : q₀.op_type = t := hqt
      obtain ⟨h1, h2⟩ := hports q₀ (List.mem_cons_of_mem n hq₀) hq₀t
      rw [rewriteInputs_input, rewriteInputs_output]
      exact ⟨by simpa using h1, h2⟩
    have hnodecl' : ∀ q ∈ rewireStep names i o ns, q.op_type = t →
        ∀ x, q.output.head? = some x → x ∉ names := by
      intro q hq hqt x hx
      rw [hrw] at hq
      obtain ⟨q₀, hq₀, rfl⟩ := List.mem_map.mp hq
      rw [rewriteInputs_output] at hx
      exact hnodecl q₀ (List.mem_cons_of_mem n hq₀) hqt x hx
    have htail' : ∀ q ∈ rewireStep names i o ns, q.op_type = t →
        ∀ x ∈ q.output.tail,
        ∀ p ∈ (rewireStep names i o acc).reverse ++ rewireStep names i o ns,
          x ∉ p.input := by
      intro q hq hqt x hx p' hp' hxin
      rw [hrw] at hq
      obtain ⟨q₀, hq₀, rfl⟩ := List.mem_map.mp hq
      have hq₀t : q₀.op_type = t := hqt
      rw [rewriteInputs_output] at hx
      have hxout : x ∈ q₀.output := List.mem_of_mem_tail hx
      obtain ⟨p₀, hp₀, rfl⟩ := hmem_new p' hp'
      rw [rewriteInputs_input] at hxin
      obtain ⟨y, hy, hxy⟩ := List.mem_map.mp hxin
      by_cases hyo : y = o
      · rw [if_pos hyo] at hxy
        subst hxy
        exact hfreshB q₀ hq₀ _ hxout hiS
      · rw [if_neg hyo] at hxy
        subst hxy
        exact htail q₀ (List.mem_cons_of_mem n hq₀) hq₀t y hx p₀ hp₀ hy
    have hchknew : checkNodes scope
        ((rewireStep names i o acc).reverse ++ rewireStep names i o ns) = true := by
      have hshape : (rewireStep names i o acc).reverse ++ rewireStep names i o ns =
          acc.reverse.map (rewriteInputs o i) ++ ns.map (rewriteInputs o i) := by
        rw [hrw, hrw, ← List.map_reverse]
      rw [hshape]
      exact hsplice
    obtain ⟨r, hspr, hchkr⟩ := ih hchknew hports' hnodecl' htail'
    exact ⟨r, by rw [singlePassAux, if_pos hop, hi, ho]; exact hspr, hchkr⟩
  | case3 acc n ns hop hmiss =>
    intro _ hports _ _
    have hnt : n.op_type = t := by simpa using hop
    obtain ⟨h1, h2⟩ := hports n (List.mem_cons_self n ns) hnt
    obtain ⟨i, hi⟩ : ∃ i, n.input.head? = some i := by
      cases hni : n.input with
      | nil => exact absurd hni h1
      | cons a l => exact ⟨a, rfl⟩
    obtain ⟨o, ho⟩ : ∃ o, n.output.head? = some o := by
      cases hno : n.output with
      | nil => exact absurd hno h2
      | cons a l => exact ⟨a, rfl⟩
    exact absurd (hmiss i o hi ho) not_false
  | case4 acc n ns hop ih =>
    intro hchk hports hnodecl htail
    have hshape : (n :: acc).reverse ++ ns = acc.reverse ++ n :: ns := by
      rw [List.reverse_cons, List.append_assoc]
      rfl
    obtain ⟨r, h1, h2⟩ := ih (by rw [hshape]; exact hchk)
      (fun q hq => hports q (List.mem_cons_of_mem n hq))
      (fun q hq => hnodecl q (List.mem_cons_of_mem n hq))
      (fun q hq hqt x hx p hp =>
        htail q (List.mem_cons_of_mem n hq) hqt x hx p (by rw [← hshape]; exact hp))
    exact ⟨r, by rw [singlePassAux, if_neg hop]; exact h1, h2⟩

/-! ## C2: checker preservation -/

/-- C2 (counterexample): a model that passes the checker on which the call
fails.  The `Mark` node's first output `b` is a declared graph output, so the
producer `P` of its first input `a` is renamed to emit `b`; the remaining
consumer `Q` of `a` is left consuming a name no node produces, and the final
`check_model` raises. -/
theorem C2_counterexample :
    check_model renameBreakModel.graph = true ∧
    remove_nodes_by_op_type renameBreakModel "Mark" = none := by
  decide

/-- C2 (amended): for every model that passes the checker, if every node of
the (supported) removed op type has at least one input and one output, has a
first output that is not a declared graph output, and has no output beyond the
first consumed by any node, then the call succeeds: the final `check_model`
does not raise, including when several removed nodes are chained. -/
theorem C2_checker_preserved (m : ModelProto) (t : String)
    (hv : check_model m.graph = true)
    (hs : t ∈ supported_op_types)
    (hports : ∀ n ∈ m.graph.node, n.op_type = t → n.input ≠ [] ∧ n.output ≠ [])
    (hnodecl : ∀ n ∈ m.graph.node, n.op_type = t →
      ∀ x ∈ n.output.take 1, x ∉ m.graph.output)
    (htail : ∀ n ∈ m.graph.node, n.op_type = t →
      ∀ x ∈ n.output.tail, ∀ p ∈ m.graph.node, x ∉ p.input) :
    ∃ m', remove_nodes_by_op_type m t = some m' := by
  obtain ⟨r, hsp, hchk⟩ := singlePassAux_check m.graph.output t
    (m.graph.input ++ m.graph.initializer) [] m.graph.node
    (by simpa using hv) hports
    (by
      intro n hn hnt x hx
      refine hnodecl n hn hnt x ?_
      cases hno : n.output with
      | nil => rw [hno] at hx; cases hx
      | cons y l =>
        rw [hno] at hx
        cases hx
        simp)
    (by
      intro n hn hnt x hx p hp
      exact htail n hn hnt x hx p (by simpa using hp))
  refine ⟨_, (remove_eq_some_iff m t _).mpr ⟨hs, r, hsp, ?_, rfl⟩⟩
  exact hchk

/-- C2 (witness): the amended theorem applied to `markModel` (whose single
`Mark` node is properly chained between producer and consumer). -/
theorem C2_witness :
    (check_model markModel.graph = true ∧ "Mark" ∈ supported_op_types ∧
      (∀ n ∈ markModel.graph.node, n.op_type = "Mark" →
        n.input ≠ [] ∧ n.output ≠ []) ∧
      (∀ n ∈ markModel.graph.node, n.op_type = "Mark" →
        ∀ x ∈ n.output.take 1, x ∉ markModel.graph.output) ∧
      (∀ n ∈ markModel.graph.node, n.op_type = "Mark" →
        ∀ x ∈ n.output.tail, ∀ p ∈ markModel.graph.node, x ∉ p.input)) ∧
    ∃ m', remove_nodes_by_op_type markModel "Mark" = some m' :=
  ⟨⟨by decide, by decide, by decide, by decide, by decide⟩,
    C2_checker_preserved markModel "Mark" (by decide) (by decide) (by decide)
      (by decide) (by decide)⟩

/-! ## C3: the op type assertion -/

/-- C3 (counterexample): the function does not accept an arbitrary op type —
on a model with no nodes at all, the call with op type `"Relu"` fails (the
`assert op_type in supported_op_types` raises) although the same call with the
supported op type `"Mark"` succeeds, so the failure is on account of the
op type argument itself. -/
theorem C3_counterexample :
    remove_nodes_by_op_type emptyModel "Relu" = none ∧
    remove_nodes_by_op_type emptyModel "Mark" ≠ none := by
  decide

/-- C3 (amended): `remove_nodes_by_op_type` asserts that the op type is one of
the supported op types `"Mark"` and `"Conv"`; for every other op type string
the call fails regardless of the model. -/
theorem C3_unsupported_op_type_fails (m : ModelProto) (t : String)
    (h : t ∉ supported_op_types) : remove_nodes_by_op_type m t = none := by
  simp [remove_nodes_by_op_type, h]

/-- C3 (witness): the amended theorem applied to the empty model and op type
`"Relu"`. -/
theorem C3_witness :
    "Relu" ∉ supported_op_types ∧ remove_nodes_by_op_type emptyModel "Relu" = none :=
  ⟨by decide, C3_unsupported_op_type_fails emptyModel "Relu" (by decide)⟩

/-! ## C5: `prepare_onnx_for_openvino` -/

/-- C5: `prepare_onnx_for_openvino` returns (writes to `out_path`) exactly the
model obtained by removing every `"Mark"` node from the loaded model via
`remove_nodes_by_op_type`, and the checker passes on every model it returns
before it is saved. -/
theorem C5_prepare_onnx (m : ModelProto) :
    prepare_onnx_for_openvino m = remove_nodes_by_op_type m "Mark" ∧
    ∀ m', prepare_onnx_for_openvino m = some m' → check_model m'.graph = true := by
  have heq : prepare_onnx_for_openvino m = remove_nodes_by_op_type m "Mark" := by
    unfold prepare_onnx_for_openvino
    cases h : remove_nodes_by_op_type m "Mark" with
    | none => rfl
    | some m1 => simp [check_model_of_remove_eq_some h]
  exact ⟨heq, fun m' h' => check_model_of_remove_eq_some (heq ▸ h')⟩

/-- C5 (witness): `prepare_onnx_for_openvino` on `markModel` returns the
spliced model, with the checker passing on it. -/
theorem C5_witness :
    prepare_onnx_for_openvino markModel = some markModelSpliced ∧
    check_model markModelSpliced.graph = true :=
  ⟨by decide, (C5_prepare_onnx markModel).2 markModelSpliced (by decide)⟩

/-! ## C9: the explain forward dispatch -/

/-- C9: for every classifier instance whose backbone/neck pipeline yields at
least one feature (so that `feature_vector = x[-1]` is defined),
`_forward_explain_image_classifier` raises `RuntimeError` exactly when `mode`
is neither `"tensor"` nor `"predict"`, and for those two modes returns a dict
with exactly the keys `"logits"`, `"feature_vector"` and `"saliency_map"`. -/
theorem C9_forward_explain_mode (c : ImageClassifier T R P) (inputs : T)
    (ds : Option P) (mode : String) (hfv : explainFeatureList c inputs ≠ []) :
    ForwardExplainModeSpec c inputs ds mode := by
  obtain ⟨fv, hfv'⟩ : ∃ fv, (explainFeatureList c inputs).getLast? = some fv := by
    cases h : (explainFeatureList c inputs).getLast? with
    | none => exact absurd (List.getLast?_eq_none_iff.mp h) hfv
    | some fv => exact ⟨fv, rfl⟩
  unfold ForwardExplainModeSpec _forward_explain_image_classifier
  rw [explainFeatureList] at hfv'
  cases hb : backbone_forward c inputs with
  | mk outs lnf =>
    rw [hb] at hfv'
    simp only [hb, hfv']
    by_cases ht : mode = "tensor"
    · simp [ht]
    · by_cases hp : mode = "predict"
      · simp [hp]
      · simp [ht, hp]

/-- C9 (witness): the theorem applied to the concrete `trivialClassifier` at
mode `"tensor"`. -/
theorem C9_witness :
    explainFeatureList trivialClassifier 5 ≠ [] ∧
    ForwardExplainModeSpec trivialClassifier 5 none "tensor" :=
  ⟨by decide, C9_forward_explain_mode trivialClassifier 5 none "tensor" (by decide)⟩

/-! ## C10: the LiteHRNet ignored scopes -/

/-- C10: `_obtain_ignored_scope` returns preset `"mixed"` with a non-empty
ignored scope for the `18` and `s` variants, preset `"performance"` with a
non-empty ignored scope for the `x` variant, and the empty dict for every
other model name; `_optimization_config` always pairs the quantile
`advanced_parameters` with that result. -/
theorem C10_litehrnet_scopes :
    (∀ v, v = "18" ∨ v = "s" →
      ∃ cfg, _obtain_ignored_scope (litehrnet_model_name v) = some cfg ∧
        cfg.preset = "mixed" ∧ cfg.ignored_scope.names ≠ []) ∧
    (∃ cfg, _obtain_ignored_scope (litehrnet_model_name "x") = some cfg ∧
      cfg.preset = "performance" ∧ cfg.ignored_scope.names ≠ []) ∧
    (∀ model_name, model_name ∉ ["litehrnet_18", "litehrnet_s", "litehrnet_x"] →
      _obtain_ignored_scope model_name = none) ∧
    (∀ model_name, (_optimization_config model_name).advanced_parameters =
        quantileAdvancedParameters ∧
      (_optimization_config model_name).scope = _obtain_ignored_scope model_name) := by
  refine ⟨?_, ?_, ?_, fun _ => ⟨rfl, rfl⟩⟩
  · rintro v (rfl | rfl)
    · exact ⟨_, rfl, rfl, by simp [names_litehrnet_18]⟩
    · exact ⟨_, rfl, rfl, by simp [names_litehrnet_s]⟩
  · exact ⟨_, rfl, rfl, by simp [names_litehrnet_x]⟩
  · intro model_name h
    simp only [List.mem_cons, List.not_mem_nil, or_false, not_or] at h
    simp [_obtain_ignored_scope, h.1, h.2.1, h.2.2]

/-- C10 (witness): the theorem applied at the `"18"` variant and at the
unknown model name `"litehrnet_2"`. -/
theorem C10_witness :
    ("18" = "18" ∨ "18" = "s") ∧
    (∃ cfg, _obtain_ignored_scope (litehrnet_model_name "18") = some cfg ∧
      cfg.preset = "mixed" ∧ cfg.ignored_scope.names ≠ []) ∧
    ("litehrnet_2" ∉ ["litehrnet_18", "litehrnet_s", "litehrnet_x"] ∧
      _obtain_ignored_scope "litehrnet_2" = none) :=
  ⟨Or.inl rfl, C10_litehrnet_scopes.1 "18" (Or.inl rfl),
    by decide, C10_litehrnet_scopes.2.2.1 "litehrnet_2" (by decide)⟩

end Spec2Proof
